import Mathlib

/-!
Verification of the fundingscape record-linkage and dedup engine
(`src/fundingscape/dedup.py`) against its natural-language specification.

The grant store (DuckDB table `grant_award`) is modelled as a list of rows
in insertion order; each SQL `UPDATE` statement of the source reads one
consistent snapshot of the table and writes every matching row, so it is
embedded as a `List.map` whose per-row update may consult the whole input
snapshot.  SQL three-valued logic on nullable columns is modelled
explicitly: comparisons against `NULL` are never true (`sqlEqStr`,
`sqlLikeOpt` return `false` on `none`).  A bare `LIMIT 1` subquery returns
the first row in table-scan order, i.e. `List.find?` over the list; rows
are stored in insertion order with monotonically assigned ids (schema:
`id` from sequence `seq_grant`), which theorems needing it take as an
explicit sortedness/no-dup hypothesis.
-/

namespace Fundingscape

/-- Calendar date as stored in the `DATE` columns (`start_date`, `end_date`).
SQL compares dates chronologically, i.e. lexicographically on
(year, month, day); `YEAR(d)` is the `year` field. -/
structure Date where
  year : Nat
  month : Nat
  day : Nat
deriving DecidableEq, Repr

/-- SQL `<` on dates: chronological (lexicographic) order. -/
def Date.lt (a b : Date) : Bool :=
  a.year < b.year ||
    (a.year == b.year && (a.month < b.month ||
      (a.month == b.month && a.day < b.day)))

/-- SQL `<=` on dates. -/
def Date.le (a b : Date) : Bool := !(Date.lt b a)

/-- The sentinel "far past" date literal `'1900-01-01'`. -/
def farPast : Date := ⟨1900, 1, 1⟩

/-- The sentinel "far future" date literal `'9999-12-31'`. -/
def farFuture : Date := ⟨9999, 12, 31⟩

/-- One row of the `grant_award` table (the columns read or written by
`dedup.py`; `TEXT` columns without `NOT NULL` are `Option String`,
`DOUBLE total_funding` is only ever tested for `NULL` and copied, so its
carrier is irrelevant and it is modelled as `Option Int`). -/
structure Row where
  id : Nat
  source : String
  source_id : Option String
  project_id : Option String
  start_date : Option Date
  end_date : Option Date
  total_funding : Option Int
  pi_country : Option String
  currency : Option String
  funder_id : Option Nat
  dedup_of : Option Nat
  updated_at : Nat
deriving DecidableEq, Repr

/-- One row of the `funder` table (columns used by `_link_funders`). -/
structure Funder where
  id : Nat
  name : String
  short_name : Option String
  country : String
  ftype : String
deriving DecidableEq, Repr

/-- The database state touched by `run_dedup`: the `grant_award` table,
the `funder` table, and the `seq_funder` sequence counter. -/
structure Store where
  grants : List Row
  funders : List Funder
  seq : Nat
deriving DecidableEq, Repr

/-- SQL equality on two nullable `TEXT` values: `NULL = x` is never true. -/
def sqlEqStr (a b : Option String) : Bool :=
  match a, b with
  | some x, some y => x == y
  | _, _ => false

/-- `x IS NOT NULL AND x != ''` on a nullable `TEXT` column. -/
def nonEmptyStr (a : Option String) : Bool :=
  match a with
  | some s => s != ""
  | none => false

/-- SQL `LIKE` pattern matching for the patterns occurring in the source:
`'_'` matches any single character, a trailing `'%'` matches any suffix,
every other pattern character matches itself. -/
def likeMatch : List Char → List Char → Bool
  | ['%'], _ => true
  | [], s => s.isEmpty
  | '_' :: ps, _ :: ss => likeMatch ps ss
  | _ :: _, [] => false
  | c :: ps, c2 :: ss => c == c2 && likeMatch ps ss

/-- `s LIKE pat` on a nullable column (`NULL LIKE pat` is never true). -/
def sqlLikeOpt (o : Option String) (pat : String) : Bool :=
  match o with
  | some s => likeMatch pat.toList s.toList
  | none => false

/-- `s LIKE '<lit>%' ESCAPE '\'` where every `_` of `lit` is escaped
(patterns `'oaire\_EC\_%'` and `'openaire\_EC\_%'` of the source): a
literal-prefix test on a nullable column. -/
def sqlLikeEsc (o : Option String) (lit : String) : Bool :=
  match o with
  | some s => List.isPrefixOf lit.toList s.toList
  | none => false

/-- `COALESCE(a, b)`. -/
def coalesce {α : Type} (a b : Option α) : Option α :=
  match a with
  | some x => some x
  | none => b

/-!  ### Phase: clear flags
`UPDATE grant_award SET dedup_of = NULL WHERE dedup_of IS NOT NULL`
(run_dedup line 28). -/

def clearFlags (g : List Row) : List Row :=
  g.map fun r => { r with dedup_of := none }

/-!  ### Phase: `_clean_date_anomalies`
Five snapshot updates, in source order: swap inverted ranges first, then
null out the two sentinel literals, then the implausible year ranges. -/

/-- `SET start_date = end_date, end_date = start_date WHERE both NOT NULL
AND start_date > end_date` (simultaneous assignment from the old row). -/
def swapDates (r : Row) : Row :=
  match r.start_date, r.end_date with
  | some s, some e => if Date.lt e s then { r with start_date := some e, end_date := some s } else r
  | _, _ => r

/-- `SET start_date = NULL WHERE start_date = '1900-01-01'`. -/
def fixSentinelStart (r : Row) : Row :=
  if r.start_date == some farPast then { r with start_date := none } else r

/-- `SET end_date = NULL WHERE end_date = '9999-12-31'`. -/
def fixSentinelEnd (r : Row) : Row :=
  if r.end_date == some farFuture then { r with end_date := none } else r

/-- `SET start_date = NULL WHERE start_date IS NOT NULL AND YEAR(start_date) < 1950`. -/
def fixAncientStart (r : Row) : Row :=
  match r.start_date with
  | some d => if d.year < 1950 then { r with start_date := none } else r
  | none => r

/-- `SET end_date = NULL WHERE end_date IS NOT NULL AND YEAR(end_date) < 1950`. -/
def fixAncientEnd (r : Row) : Row :=
  match r.end_date with
  | some d => if d.year < 1950 then { r with end_date := none } else r
  | none => r

/-- `SET end_date = NULL WHERE end_date IS NOT NULL AND YEAR(end_date) > 2040`. -/
def fixFutureEnd (r : Row) : Row :=
  match r.end_date with
  | some d => if 2040 < d.year then { r with end_date := none } else r
  | none => r

def _clean_date_anomalies (g : List Row) : List Row :=
  (((((g.map swapDates).map fixSentinelStart).map
    fixSentinelEnd).map fixAncientStart).map fixAncientEnd).map fixFutureEnd

/-!  ### Phases: `_normalize_country_codes`, `_normalize_currency_codes`
One `UPDATE ... WHERE col = old` per mapping entry, applied sequentially
in dict order. -/

def _COUNTRY_CODE_MAP : List (String × String) := [("UK", "GB"), ("EL", "GR")]

def _CURRENCY_CODE_MAP : List (String × String) := [("$", "AUD")]

def countryFix (oldC newC : String) (r : Row) : Row :=
  if r.pi_country == some oldC then { r with pi_country := some newC } else r

def currencyFix (oldC newC : String) (r : Row) : Row :=
  if r.currency == some oldC then { r with currency := some newC } else r

def _normalize_country_codes (g : List Row) : List Row :=
  _COUNTRY_CODE_MAP.foldl (fun g p => g.map (countryFix p.1 p.2)) g

def _normalize_currency_codes (g : List Row) : List Row :=
  _CURRENCY_CODE_MAP.foldl (fun g p => g.map (currencyFix p.1 p.2)) g

/-!  ### Phase: `_link_funders` -/

/-- The module-level `_OPENAIRE_FUNDERS` dict, in source order:
code ↦ (full name, country, type). -/
def _OPENAIRE_FUNDERS : List (String × String × String × String) :=
  [("NIH", "National Institutes of Health", "US", "foreign_gov"),
   ("NSF", "National Science Foundation", "US", "foreign_gov"),
   ("UKRI", "UK Research and Innovation", "GB", "foreign_gov"),
   ("SNSF", "Swiss National Science Foundation", "CH", "foreign_gov"),
   ("FCT", "Fundação para a Ciência e a Tecnologia", "PT", "foreign_gov"),
   ("NWO", "Dutch Research Council", "NL", "foreign_gov"),
   ("NHMRC", "National Health and Medical Research Council", "AU", "foreign_gov"),
   ("ARC", "Australian Research Council", "AU", "foreign_gov"),
   ("AKA", "Academy of Finland", "FI", "foreign_gov"),
   ("ANR", "Agence Nationale de la Recherche", "FR", "foreign_gov"),
   ("RCN", "Research Council of Norway", "NO", "foreign_gov"),
   ("WT", "Wellcome Trust", "GB", "foundation"),
   ("FWF", "Austrian Science Fund", "AT", "foreign_gov"),
   ("TUBITAK", "Scientific and Technological Research Council of Turkey", "TR", "foreign_gov"),
   ("SFI", "Science Foundation Ireland", "IE", "foreign_gov"),
   ("IRFD", "Independent Research Fund Denmark", "DK", "foreign_gov"),
   ("NNF", "Novo Nordisk Foundation", "DK", "foundation"),
   ("MZOS", "Ministry of Science and Education (Croatia)", "HR", "foreign_gov"),
   ("HRZZ", "Croatian Science Foundation", "HR", "foreign_gov"),
   ("INCa", "Institut National du Cancer", "FR", "foreign_gov"),
   ("MESTD", "Ministry of Education, Science and Tech. Dev. (Serbia)", "RS", "foreign_gov")]

/-- `SELECT id FROM funder WHERE short_name = ?`; if absent, insert with
`id = nextval('seq_funder')`. -/
def ensureFunder (st : Store) (e : String × String × String × String) : Store :=
  if st.funders.any fun f => f.short_name == some e.1 then st
  else { st with
          funders := st.funders ++ [⟨st.seq, e.2.1, some e.1, e.2.2.1, e.2.2.2⟩],
          seq := st.seq + 1 }

/-- Python dict-comprehension insert: an existing key keeps its position
but takes the new value, a new key is appended. -/
def dictInsert (m : List (String × Nat)) (k : String) (v : Nat) : List (String × Nat) :=
  if m.any fun p => p.1 == k then m.map fun p => if p.1 == k then (k, v) else p
  else m ++ [(k, v)]

/-- `{short_name: id for ...}` over
`SELECT short_name, id FROM funder WHERE short_name IS NOT NULL`. -/
def funderMap (fs : List Funder) : List (String × Nat) :=
  fs.foldl (fun m f =>
    match f.short_name with
    | some c => dictInsert m c f.id
    | none => m) []

def dictGet (m : List (String × Nat)) (k : String) : Option Nat :=
  (m.find? fun p => p.1 == k).map (·.2)

/-- `UPDATE grant_award SET funder_id = fid WHERE source = src AND
funder_id IS NULL AND source_id LIKE pat` (the funder-code linking loops;
the pattern's underscores are unescaped, hence single-char wildcards). -/
def linkByPattern (src pat : String) (fid : Nat) (g : List Row) : List Row :=
  g.map fun r =>
    if r.source == src && r.funder_id == none && sqlLikeOpt r.source_id pat
    then { r with funder_id := some fid } else r

def ecLinkRow (ecId : Nat) (r : Row) : Row :=
  if r.source == "cordis_bulk" && r.funder_id == none
  then { r with funder_id := some ecId } else r

/-- `ec_id = funder_map.get("EC"); if ec_id:` (Python truthiness: a zero
id is falsy and skips the CORDIS→EC linking) followed by the CORDIS
update. -/
def ecLinkGrants (fmap : List (String × Nat)) (g : List Row) : List Row :=
  match dictGet fmap "EC" with
  | some ecId => if ecId == 0 then g else g.map (ecLinkRow ecId)
  | none => g

/-- The three grant-side updates of `_link_funders`: CORDIS→EC, then the
`oaire_<code>_` loop over the funder map, then the `openaire_<code>_`
loop. -/
def linkGrants (fmap : List (String × Nat)) (g : List Row) : List Row :=
  fmap.foldl (fun g p => linkByPattern "openaire" ("openaire_" ++ p.1 ++ "_%") p.2 g)
    (fmap.foldl (fun g p => linkByPattern "openaire_bulk" ("oaire_" ++ p.1 ++ "_%") p.2 g)
      (ecLinkGrants fmap g))

def _link_funders (st : Store) : Store :=
  let st1 := _OPENAIRE_FUNDERS.foldl ensureFunder st
  { st1 with grants := linkGrants (funderMap st1.funders) st1.grants }

/-!  ### Phase: `_enrich_cordis_from_openaire` -/

/-- The `WHERE` conditions on the CORDIS row itself, shared by the count
query and the update. -/
def enrichGuard (r : Row) : Bool :=
  r.source == "cordis_bulk" && nonEmptyStr r.project_id &&
    (r.total_funding == none || r.pi_country == none)

/-- A matching OpenAIRE-bulk donor row (`UPDATE ... FROM grant_award o`;
with several donors the engine joins one unspecified matching row — the
first in table order here). -/
def openaireDonor (g : List Row) (pid : Option String) : Option Row :=
  g.find? fun o => o.source == "openaire_bulk" && sqlEqStr o.project_id pid

/-- The count query: CORDIS rows with a non-empty `project_id`, a gap in
an enrichable field, and an existing OpenAIRE-bulk row with the same
`project_id`. -/
def _enrich_count (g : List Row) : Nat :=
  (g.filter fun c =>
    enrichGuard c &&
      g.any fun o => o.source == "openaire_bulk" && sqlEqStr o.project_id c.project_id).length

/-- The per-row effect of the enrichment `UPDATE ... FROM`: `COALESCE`
the enrichable fields, stamp `updated_at = CURRENT_TIMESTAMP` (`now`). -/
def enrichRow (now : Nat) (g : List Row) (c : Row) : Row :=
  if enrichGuard c then
    match openaireDonor g c.project_id with
    | some o =>
        { c with
          total_funding := coalesce c.total_funding o.total_funding,
          pi_country := coalesce c.pi_country o.pi_country,
          updated_at := now }
    | none => c
  else c

def _enrich_update (now : Nat) (g : List Row) : List Row :=
  g.map (enrichRow now g)

/-!  ### Phase: `_flag_openaire_ec_duplicates`
Two sequential snapshot updates: openaire_bulk EC rows, then openaire API
EC rows, each pointed at a CORDIS row matched by `project_id`
(`SELECT c.id ... LIMIT 1` = first CORDIS match in table order). -/

/-- The candidate predicate of both EC updates: a CORDIS row carrying
this `project_id`. -/
def ecCandPred (pid : Option String) (c : Row) : Bool :=
  c.source == "cordis_bulk" && sqlEqStr c.project_id pid

/-- `(SELECT c.id FROM grant_award c WHERE c.source = 'cordis_bulk' AND
c.project_id = pid LIMIT 1)`. -/
def cordisMatch (g : List Row) (pid : Option String) : Option Nat :=
  (g.find? (ecCandPred pid)).map (·.id)

/-- Whether a CORDIS row with this `project_id` exists (the `EXISTS`
subquery of both EC updates). -/
def cordisExists (g : List Row) (pid : Option String) : Bool :=
  g.any (ecCandPred pid)

def ecFlagRowBulk (g : List Row) (o : Row) : Row :=
  if o.source == "openaire_bulk" && sqlLikeEsc o.source_id "oaire_EC_" &&
      nonEmptyStr o.project_id && cordisExists g o.project_id
  then { o with dedup_of := cordisMatch g o.project_id } else o

def ecFlagRowApi (g : List Row) (o : Row) : Row :=
  if o.source == "openaire" && sqlLikeEsc o.source_id "openaire_EC_" &&
      nonEmptyStr o.project_id && cordisExists g o.project_id
  then { o with dedup_of := cordisMatch g o.project_id } else o

def _flag_ec_bulk (g : List Row) : List Row := g.map (ecFlagRowBulk g)

def _flag_ec_api (g : List Row) : List Row := g.map (ecFlagRowApi g)

def _flag_openaire_ec_duplicates (g : List Row) : List Row :=
  _flag_ec_api (_flag_ec_bulk g)

/-!  ### Phase: `_flag_openaire_api_duplicates` -/

/-- The candidate predicate of the API-vs-bulk update: a still-canonical
OpenAIRE-bulk row carrying this `project_id`. -/
def apiCandPred (pid : Option String) (b : Row) : Bool :=
  b.source == "openaire_bulk" && sqlEqStr b.project_id pid && b.dedup_of == none

/-- `(SELECT b.id FROM grant_award b WHERE b.source = 'openaire_bulk' AND
b.project_id = pid AND b.dedup_of IS NULL LIMIT 1)`. -/
def bulkMatch (g : List Row) (pid : Option String) : Option Nat :=
  (g.find? (apiCandPred pid)).map (·.id)

def bulkExists (g : List Row) (pid : Option String) : Bool :=
  g.any (apiCandPred pid)

def apiFlagRow (g : List Row) (r : Row) : Row :=
  if r.source == "openaire" && r.dedup_of == none && nonEmptyStr r.project_id &&
      bulkExists g r.project_id
  then { r with dedup_of := bulkMatch g r.project_id } else r

def _flag_openaire_api_duplicates (g : List Row) : List Row :=
  g.map (apiFlagRow g)

/-!  ### Phase: `_flag_within_source_duplicates` -/

/-- Same-natural-key predicate of the within-source subqueries (a `NULL`
`source_id` matches nothing under SQL equality). -/
def withinCandPred (src : String) (sid : Option String) (r2 : Row) : Bool :=
  r2.source == src && sqlEqStr r2.source_id sid

/-- The ids of the `(source, source_id)` group of a row (`g2` / `g3`
subqueries). -/
def groupIds (g : List Row) (src : String) (sid : Option String) : List Nat :=
  (g.filter (withinCandPred src sid)).map (·.id)

/-- `dup.id != (SELECT MIN(g3.id) ...)`: SQL `!=` against a `NULL`
aggregate (empty group) is not true. -/
def notGroupMin (g : List Row) (r : Row) : Bool :=
  match (groupIds g r.source r.source_id).min? with
  | some m => r.id != m
  | none => false

def withinFlagRow (g : List Row) (r : Row) : Row :=
  if r.dedup_of == none && notGroupMin g r &&
      g.any fun r2 => r2.source == r.source && sqlEqStr r2.source_id r.source_id && r2.id != r.id
  then { r with dedup_of := (groupIds g r.source r.source_id).min? } else r

def _flag_within_source_duplicates (g : List Row) : List Row :=
  g.map (withinFlagRow g)

/-!  ### `run_dedup`: the full pipeline, in source order. -/

/-- The grant table after the clear, date-cleanup and code-normalization
phases. -/
def normStage (st : Store) : List Row :=
  _normalize_currency_codes (_normalize_country_codes (_clean_date_anomalies (clearFlags st.grants)))

/-- The store after `_link_funders`. -/
def linkStage (st : Store) : Store :=
  _link_funders { st with grants := normStage st }

/-- The store state after the clear, normalization, funder-linking and
enrichment phases, before any duplicate flagging. -/
def preFlagStore (now : Nat) (st : Store) : Store :=
  ⟨_enrich_update now (linkStage st).grants, (linkStage st).funders, (linkStage st).seq⟩

/-- The grant table after the two cross-source flagging phases
(primary-source flagging, then secondary-vs-secondary flagging), before
within-source flagging. -/
def midFlags (now : Nat) (st : Store) : List Row :=
  _flag_openaire_api_duplicates (_flag_openaire_ec_duplicates (preFlagStore now st).grants)

/-- `run_dedup`: clear flags, clean dates, normalize country and currency
codes, link funders, enrich CORDIS from OpenAIRE, flag EC duplicates,
flag API duplicates, flag within-source duplicates. `now` is the value of
`CURRENT_TIMESTAMP` during the run. -/
def run_dedup (now : Nat) (st : Store) : Store :=
  ⟨_flag_within_source_duplicates (midFlags now st), (preFlagStore now st).funders,
    (preFlagStore now st).seq⟩

/-!  ## Stage equations (syntactic unfoldings of the pipeline) -/

theorem linkStage_eq (st : Store) :
    linkStage st = _link_funders { st with grants := normStage st } := by
  unfold linkStage
  rfl

theorem preFlagStore_grants (now : Nat) (st : Store) :
    (preFlagStore now st).grants = _enrich_update now (linkStage st).grants := by
  unfold preFlagStore
  with_reducible rfl

theorem midFlags_eq (now : Nat) (st : Store) :
    midFlags now st =
      _flag_openaire_api_duplicates (_flag_openaire_ec_duplicates (preFlagStore now st).grants) := by
  unfold midFlags
  rfl

theorem run_dedup_grants (now : Nat) (st : Store) :
    (run_dedup now st).grants = _flag_within_source_duplicates (midFlags now st) := by
  unfold run_dedup
  with_reducible rfl

/-!  ## Helper lemmas -/

theorem natMin?_mem {l : List Nat} {m : Nat} (h : l.min? = some m) : m ∈ l :=
  List.min?_mem (fun a b => by omega) h

theorem natMin?_le {l : List Nat} {m : Nat} (h : l.min? = some m) : ∀ x ∈ l, m ≤ x :=
  fun _ hx => (List.le_min?_iff (fun a b c => by omega) h).mp (Nat.le_refl m) _ hx

/-- On a table in strictly increasing id order, a bare `LIMIT 1` lookup
(`List.find?`) returns the matching row of least id. -/
theorem find?_sorted_min {g : List Row} (hs : List.Pairwise (fun a b => a.id < b.id) g)
    {p : Row → Bool} {x : Row} (h : g.find? p = some x) :
    p x = true ∧ x ∈ g ∧ ∀ y ∈ g, p y = true → x.id ≤ y.id := by
  induction g with
  | nil => simp at h
  | cons a l ih =>
    rcases List.pairwise_cons.mp hs with ⟨ha, hl⟩
    by_cases hpa : p a = true
    · rw [List.find?_cons_of_pos l hpa] at h
      cases h
      refine ⟨hpa, List.mem_cons_self _ _, ?_⟩
      intro y hy _
      rcases List.mem_cons.mp hy with rfl | hyl
      · exact Nat.le_refl _
      · exact Nat.le_of_lt (ha y hyl)
    · rw [List.find?_cons_of_neg l hpa] at h
      rcases ih hl h with ⟨hpx, hxl, hmin⟩
      refine ⟨hpx, List.mem_cons_of_mem _ hxl, ?_⟩
      intro y hy hpy
      rcases List.mem_cons.mp hy with rfl | hyl
      · exact absurd hpy hpa
      · exact hmin y hyl hpy

/-!  ## Date lemmas (claims C5 and C6) -/

theorem Date.lt_asymm {a b : Date} (h : Date.lt a b = true) : Date.lt b a = false := by
  simp only [Date.lt, Bool.or_eq_true, Bool.and_eq_true, beq_iff_eq,
    decide_eq_true_eq, Bool.eq_false_iff, ne_eq, not_or, not_and] at h ⊢
  omega

/-- The composite per-row effect of `_clean_date_anomalies`, in source
order. -/
def cleanRow (r : Row) : Row :=
  fixFutureEnd (fixAncientEnd (fixAncientStart (fixSentinelEnd (fixSentinelStart (swapDates r)))))

theorem clean_eq_map (g : List Row) : _clean_date_anomalies g = g.map cleanRow := by
  simp only [_clean_date_anomalies, List.map_map]
  rfl

theorem fixAncientEnd_start (r : Row) : (fixAncientEnd r).start_date = r.start_date := by
  unfold fixAncientEnd; split <;> (try split) <;> rfl

theorem fixFutureEnd_start (r : Row) : (fixFutureEnd r).start_date = r.start_date := by
  unfold fixFutureEnd; split <;> (try split) <;> rfl

theorem fixAncientStart_year (r : Row) :
    Option.all (fun d => decide (1950 ≤ d.year)) (fixAncientStart r).start_date = true := by
  rcases h : r.start_date with _ | d
  · simp [fixAncientStart, h]
  · by_cases hy : d.year < 1950
    · simp [fixAncientStart, h, hy]
    · simp [fixAncientStart, h, hy]; omega

theorem endBounds_fixes (r : Row) :
    Option.all (fun d => decide (1950 ≤ d.year ∧ d.year ≤ 2040))
      (fixFutureEnd (fixAncientEnd r)).end_date = true := by
  rcases h : r.end_date with _ | d
  · simp [fixAncientEnd, fixFutureEnd, h]
  · by_cases h1 : d.year < 1950
    · simp [fixAncientEnd, fixFutureEnd, h, h1]
    · by_cases h2 : 2040 < d.year
      · simp [fixAncientEnd, fixFutureEnd, h, h1, h2]
      · simp [fixAncientEnd, fixFutureEnd, h, h1, h2]; omega

theorem cleanRow_end_bounds (r : Row) :
    Option.all (fun d => decide (1950 ≤ d.year ∧ d.year ≤ 2040)) (cleanRow r).end_date = true := by
  unfold cleanRow
  exact endBounds_fixes _

/-- The start-date bound actually guaranteed by the code. -/
def startOkA (d : Date) : Bool := decide (1950 ≤ d.year) && !(d == farPast)

/-- The end-date bound actually guaranteed by the code. -/
def endOkA (d : Date) : Bool :=
  decide (1950 ≤ d.year) && decide (d.year ≤ 2040) && !(d == farPast) && !(d == farFuture)

/-- The bound asserted by claim C5, for either date field: year within
[1950, 2040] and no sentinel literal. -/
def dateOkC5 (d : Date) : Bool :=
  decide (1950 ≤ d.year) && decide (d.year ≤ 2040) && !(d == farPast) && !(d == farFuture)

theorem cleanRow_start_year (r : Row) :
    Option.all (fun d => decide (1950 ≤ d.year)) (cleanRow r).start_date = true := by
  unfold cleanRow
  rw [fixFutureEnd_start, fixAncientEnd_start]
  exact fixAncientStart_year _

theorem optAll_imp {p q : Date → Bool} (h : ∀ d, p d = true → q d = true) :
    ∀ o : Option Date, Option.all p o = true → Option.all q o = true := by
  intro o
  cases o with
  | none => intro _; rfl
  | some d => exact h d

/-- C5, amended: after `_clean_date_anomalies` no surviving start or end
date has year < 1950, no surviving end date has year > 2040 or is a
sentinel literal, and the far-past sentinel survives in neither field.
(The code leaves start dates with year > 2040 — including the far-future
sentinel — untouched, see the counterexample.) -/
theorem clean_dates_c5_amended (g : List Row) :
    ∀ r ∈ _clean_date_anomalies g,
      Option.all startOkA r.start_date = true ∧ Option.all endOkA r.end_date = true := by
  intro r hr
  rw [clean_eq_map] at hr
  obtain ⟨r0, _, rfl⟩ := List.mem_map.mp hr
  constructor
  · refine optAll_imp ?_ _ (cleanRow_start_year r0)
    intro d hd
    simp only [decide_eq_true_eq] at hd
    simp only [startOkA, Bool.and_eq_true, decide_eq_true_eq, Bool.not_eq_true',
      beq_eq_false_iff_ne, ne_eq]
    exact ⟨hd, fun he => by subst he; exact absurd hd (by decide)⟩
  · refine optAll_imp ?_ _ (cleanRow_end_bounds r0)
    intro d hd
    simp only [decide_eq_true_eq] at hd
    simp only [endOkA, Bool.and_eq_true, decide_eq_true_eq, Bool.not_eq_true',
      beq_eq_false_iff_ne, ne_eq]
    refine ⟨⟨⟨hd.1, hd.2⟩, fun he => ?_⟩, fun he => ?_⟩
    · subst he; exact absurd hd.1 (by decide)
    · subst he; exact absurd hd.2 (by decide)

/-- A store with a single record whose `start_date` is the far-future
sentinel `9999-12-31` (and no end date). -/
def c5Row : Row :=
  ⟨1, "openaire_bulk", some "s1", none, some farFuture, none, none, none, none, none, none, 0⟩

/-- C5 counterexample: the claim as stated is false — a `start_date` of
`9999-12-31` (year > 2040, and a sentinel literal) survives
`_clean_date_anomalies`, because the year-above-maximum and far-future
sentinel checks are applied to end dates only. -/
theorem clean_dates_c5_counterexample :
    ¬ (∀ r ∈ _clean_date_anomalies [c5Row],
        Option.all dateOkC5 r.start_date = true ∧ Option.all dateOkC5 r.end_date = true) := by
  decide

/-- A well-dated record used to instantiate the amended C5 theorem. -/
def c5WRow : Row :=
  ⟨1, "gepris", some "w1", none, some ⟨2020, 1, 1⟩, some ⟨2022, 5, 5⟩, none, none, none,
    none, none, 0⟩

/-- Witness: the amended C5 theorem applied to a concrete store. -/
theorem clean_dates_c5_amended_witness :
    Option.all startOkA c5WRow.start_date = true ∧ Option.all endOkA c5WRow.end_date = true :=
  clean_dates_c5_amended [c5WRow] c5WRow (by decide)

/-!  ## Claim C6: start ≤ end after normalization, preserved by all
later phases -/

/-- Both-dates-present records satisfy `start_date <= end_date`. -/
def dInv (g : List Row) : Prop :=
  ∀ r ∈ g, ∀ a b, r.start_date = some a → r.end_date = some b → Date.le a b = true

def pairLe (r : Row) : Prop :=
  ∀ a b, r.start_date = some a → r.end_date = some b → Date.le a b = true

theorem pairLe_swapDates (r : Row) : pairLe (swapDates r) := by
  intro a b ha hb
  rcases hs : r.start_date with _ | s <;> rcases he : r.end_date with _ | e <;>
    simp only [swapDates, hs, he] at ha hb
  · exact absurd ha (by simp)
  · exact absurd ha (by simp)
  · exact absurd hb (by simp)
  · by_cases hlt : Date.lt e s = true
    · rw [if_pos hlt] at ha hb
      dsimp only at ha hb
      cases ha; cases hb
      simp [Date.le, Date.lt_asymm hlt]
    · rw [if_neg hlt] at ha hb
      rw [hs] at ha; rw [he] at hb
      cases ha; cases hb
      have hf : Date.lt b a = false := Bool.eq_false_iff.mpr hlt
      simp [Date.le, hf]

theorem fixSentinelStart_cases (r : Row) :
    fixSentinelStart r = { r with start_date := none } ∨ fixSentinelStart r = r := by
  unfold fixSentinelStart
  split
  · exact Or.inl rfl
  · exact Or.inr rfl

theorem fixSentinelEnd_cases (r : Row) :
    fixSentinelEnd r = { r with end_date := none } ∨ fixSentinelEnd r = r := by
  unfold fixSentinelEnd
  split
  · exact Or.inl rfl
  · exact Or.inr rfl

theorem fixAncientStart_cases (r : Row) :
    fixAncientStart r = { r with start_date := none } ∨ fixAncientStart r = r := by
  unfold fixAncientStart
  split
  · split
    · exact Or.inl rfl
    · exact Or.inr rfl
  · exact Or.inr rfl

theorem fixAncientEnd_cases (r : Row) :
    fixAncientEnd r = { r with end_date := none } ∨ fixAncientEnd r = r := by
  unfold fixAncientEnd
  split
  · split
    · exact Or.inl rfl
    · exact Or.inr rfl
  · exact Or.inr rfl

theorem fixFutureEnd_cases (r : Row) :
    fixFutureEnd r = { r with end_date := none } ∨ fixFutureEnd r = r := by
  unfold fixFutureEnd
  split
  · split
    · exact Or.inl rfl
    · exact Or.inr rfl
  · exact Or.inr rfl

theorem pairLe_startNone (r : Row) : pairLe { r with start_date := none } := by
  intro a b ha _
  exact absurd ha (by simp)

theorem pairLe_endNone (r : Row) : pairLe { r with end_date := none } := by
  intro a b _ hb
  exact absurd hb (by simp)

theorem pairLe_cleanRow (r : Row) : pairLe (cleanRow r) := by
  unfold cleanRow
  have h1 : pairLe (fixSentinelStart (swapDates r)) := by
    rcases fixSentinelStart_cases (swapDates r) with h | h <;> rw [h]
    · exact pairLe_startNone _
    · exact pairLe_swapDates r
  have h2 : pairLe (fixSentinelEnd (fixSentinelStart (swapDates r))) := by
    rcases fixSentinelEnd_cases (fixSentinelStart (swapDates r)) with h | h <;> rw [h]
    · exact pairLe_endNone _
    · exact h1
  have h3 : pairLe (fixAncientStart (fixSentinelEnd (fixSentinelStart (swapDates r)))) := by
    rcases fixAncientStart_cases (fixSentinelEnd (fixSentinelStart (swapDates r))) with h | h <;>
      rw [h]
    · exact pairLe_startNone _
    · exact h2
  have h4 : pairLe (fixAncientEnd (fixAncientStart (fixSentinelEnd (fixSentinelStart
      (swapDates r))))) := by
    rcases fixAncientEnd_cases (fixAncientStart (fixSentinelEnd (fixSentinelStart
        (swapDates r)))) with h | h <;> rw [h]
    · exact pairLe_endNone _
    · exact h3
  rcases fixFutureEnd_cases (fixAncientEnd (fixAncientStart (fixSentinelEnd (fixSentinelStart
      (swapDates r))))) with h | h <;> rw [h]
  · exact pairLe_endNone _
  · exact h4

theorem clean_dInv (g : List Row) : dInv (_clean_date_anomalies g) := by
  intro r hr
  rw [clean_eq_map] at hr
  obtain ⟨r0, _, rfl⟩ := List.mem_map.mp hr
  exact pairLe_cleanRow r0

theorem dInv_of_map {g : List Row} {u : Row → Row}
    (hu : ∀ r, (u r).start_date = r.start_date ∧ (u r).end_date = r.end_date)
    (h : dInv g) : dInv (g.map u) := by
  intro r hr a b hs he
  obtain ⟨r0, hr0, rfl⟩ := List.mem_map.mp hr
  exact h r0 hr0 a b ((hu r0).1.symm.trans hs) ((hu r0).2.symm.trans he)

theorem dInv_foldl {β : Type} {step : List Row → β → List Row}
    (hstep : ∀ g b, dInv g → dInv (step g b)) :
    ∀ (l : List β) (g : List Row), dInv g → dInv (l.foldl step g) := by
  intro l
  induction l with
  | nil => intro g h; exact h
  | cons b l ih => intro g h; exact ih _ (hstep g b h)

theorem dates_countryFix (o n : String) (r : Row) :
    (countryFix o n r).start_date = r.start_date ∧ (countryFix o n r).end_date = r.end_date := by
  unfold countryFix; split <;> exact ⟨rfl, rfl⟩

theorem dates_currencyFix (o n : String) (r : Row) :
    (currencyFix o n r).start_date = r.start_date ∧ (currencyFix o n r).end_date = r.end_date := by
  unfold currencyFix; split <;> exact ⟨rfl, rfl⟩

theorem dInv_countries {g : List Row} (h : dInv g) : dInv (_normalize_country_codes g) := by
  unfold _normalize_country_codes _COUNTRY_CODE_MAP
  simp only [List.foldl_cons, List.foldl_nil]
  exact dInv_of_map (dates_countryFix _ _) (dInv_of_map (dates_countryFix _ _) h)

theorem dInv_currencies {g : List Row} (h : dInv g) : dInv (_normalize_currency_codes g) := by
  unfold _normalize_currency_codes _CURRENCY_CODE_MAP
  simp only [List.foldl_cons, List.foldl_nil]
  exact dInv_of_map (dates_currencyFix _ _) h

theorem ensureFunder_grants (st : Store) (e : String × String × String × String) :
    (ensureFunder st e).grants = st.grants := by
  unfold ensureFunder; split <;> rfl

theorem ensure_grants (l : List (String × String × String × String)) (st : Store) :
    (l.foldl ensureFunder st).grants = st.grants := by
  induction l generalizing st with
  | nil => rfl
  | cons e l ih => rw [List.foldl_cons, ih, ensureFunder_grants]

theorem dInv_linkByPattern (src pat : String) (fid : Nat) {g : List Row} (h : dInv g) :
    dInv (linkByPattern src pat fid g) := by
  unfold linkByPattern
  refine dInv_of_map ?_ h
  intro r
  dsimp only
  split <;> exact ⟨rfl, rfl⟩

theorem dInv_ecLinkGrants (fmap : List (String × Nat)) {g : List Row} (h : dInv g) :
    dInv (ecLinkGrants fmap g) := by
  unfold ecLinkGrants
  split
  · split
    · exact h
    · refine dInv_of_map ?_ h
      intro r
      unfold ecLinkRow
      split <;> exact ⟨rfl, rfl⟩
  · exact h

theorem dInv_linkGrants (fmap : List (String × Nat)) {g : List Row} (h : dInv g) :
    dInv (linkGrants fmap g) := by
  unfold linkGrants
  exact dInv_foldl (fun g p hg => dInv_linkByPattern _ _ _ hg) fmap _
    (dInv_foldl (fun g p hg => dInv_linkByPattern _ _ _ hg) fmap _ (dInv_ecLinkGrants fmap h))

theorem dInv_link (st : Store) (h : dInv st.grants) : dInv (_link_funders st).grants := by
  unfold _link_funders
  dsimp only
  rw [ensure_grants]
  exact dInv_linkGrants _ h

theorem dInv_enrich (now : Nat) {g : List Row} (h : dInv g) : dInv (_enrich_update now g) := by
  unfold _enrich_update
  refine dInv_of_map ?_ h
  intro r
  unfold enrichRow
  split
  · split <;> exact ⟨rfl, rfl⟩
  · exact ⟨rfl, rfl⟩

theorem dates_ecFlagRowBulk (g : List Row) (r : Row) :
    (ecFlagRowBulk g r).start_date = r.start_date ∧ (ecFlagRowBulk g r).end_date = r.end_date := by
  unfold ecFlagRowBulk; split <;> exact ⟨rfl, rfl⟩

theorem dates_ecFlagRowApi (g : List Row) (r : Row) :
    (ecFlagRowApi g r).start_date = r.start_date ∧ (ecFlagRowApi g r).end_date = r.end_date := by
  unfold ecFlagRowApi; split <;> exact ⟨rfl, rfl⟩

theorem dates_apiFlagRow (g : List Row) (r : Row) :
    (apiFlagRow g r).start_date = r.start_date ∧ (apiFlagRow g r).end_date = r.end_date := by
  unfold apiFlagRow; split <;> exact ⟨rfl, rfl⟩

theorem dates_withinFlagRow (g : List Row) (r : Row) :
    (withinFlagRow g r).start_date = r.start_date ∧
      (withinFlagRow g r).end_date = r.end_date := by
  unfold withinFlagRow; split <;> exact ⟨rfl, rfl⟩

theorem dInv_ecFlags {g : List Row} (h : dInv g) : dInv (_flag_openaire_ec_duplicates g) :=
  dInv_of_map (dates_ecFlagRowApi _) (dInv_of_map (dates_ecFlagRowBulk _) h)

theorem dInv_apiFlags {g : List Row} (h : dInv g) : dInv (_flag_openaire_api_duplicates g) :=
  dInv_of_map (dates_apiFlagRow _) h

theorem dInv_withinFlags {g : List Row} (h : dInv g) : dInv (_flag_within_source_duplicates g) :=
  dInv_of_map (dates_withinFlagRow _) h

/-- Claim C6: after `_clean_date_anomalies`, every record with both dates
present satisfies `start_date <= end_date`, and the property is preserved
by every later pipeline phase (code normalization, funder linking,
enrichment, and all three duplicate-flagging phases) through the end of
`run_dedup`. -/
theorem dedup_c6_dates_ordered (now : Nat) (st : Store) :
    dInv (_clean_date_anomalies (clearFlags st.grants)) ∧
    dInv (_normalize_country_codes (_clean_date_anomalies (clearFlags st.grants))) ∧
    dInv (normStage st) ∧
    dInv (linkStage st).grants ∧
    dInv (preFlagStore now st).grants ∧
    dInv (_flag_openaire_ec_duplicates (preFlagStore now st).grants) ∧
    dInv (midFlags now st) ∧
    dInv (run_dedup now st).grants := by
  have h1 := clean_dInv (clearFlags st.grants)
  have h2 := dInv_countries h1
  have h3 : dInv (normStage st) := dInv_currencies h2
  have h4 : dInv (linkStage st).grants := by
    rw [linkStage_eq]
    exact dInv_link _ h3
  have h5 : dInv (preFlagStore now st).grants := by
    rw [preFlagStore_grants]
    exact dInv_enrich now h4
  have h6 : dInv (_flag_openaire_ec_duplicates (preFlagStore now st).grants) := dInv_ecFlags h5
  have h7 : dInv (midFlags now st) := by
    rw [midFlags_eq]
    exact dInv_apiFlags h6
  have h8 : dInv (run_dedup now st).grants := by
    rw [run_dedup_grants]
    exact dInv_withinFlags h7
  exact ⟨h1, h2, h3, h4, h5, h6, h7, h8⟩

/-- A well-formed single-row store used to instantiate C6. -/
def c6WRow : Row :=
  ⟨1, "gepris", some "w6", none, some ⟨2020, 1, 1⟩, some ⟨2022, 5, 5⟩, none, none, none,
    none, none, 0⟩

def c6WSt : Store := ⟨[c6WRow], [], 1⟩

set_option maxRecDepth 4000 in
/-- Witness: C6 applied to a concrete store at the final pipeline state. -/
theorem dedup_c6_dates_ordered_witness : Date.le ⟨2020, 1, 1⟩ ⟨2022, 5, 5⟩ = true :=
  (dedup_c6_dates_ordered 0 c6WSt).2.2.2.2.2.2.2 c6WRow (by decide)
    ⟨2020, 1, 1⟩ ⟨2022, 5, 5⟩ rfl rfl

/-!  ## Claim C7: enrichment never overwrites a non-null value -/

theorem coalesce_of_isSome {α : Type} (a b : Option α) (h : a.isSome = true) :
    coalesce a b = a := by
  cases a
  · simp at h
  · rfl

/-- Claim C7: `_enrich_cordis_from_openaire` never overwrites: a CORDIS
record's `total_funding` and `pi_country`, when non-null before the
enrichment update, are unchanged by it, whatever the donor holds. -/
theorem enrich_c7_no_overwrite (now : Nat) (g : List Row) (i : Nat)
    (hig : i < g.length) (hi : i < (_enrich_update now g).length)
    (hsrc : (g.get ⟨i, hig⟩).source = "cordis_bulk") :
    ((g.get ⟨i, hig⟩).total_funding.isSome = true →
        ((_enrich_update now g).get ⟨i, hi⟩).total_funding = (g.get ⟨i, hig⟩).total_funding) ∧
    ((g.get ⟨i, hig⟩).pi_country.isSome = true →
        ((_enrich_update now g).get ⟨i, hi⟩).pi_country = (g.get ⟨i, hig⟩).pi_country) := by
  unfold _enrich_update
  simp only [List.get_eq_getElem, List.getElem_map]
  unfold enrichRow
  constructor <;> intro hsome
  · by_cases hguard : enrichGuard g[i] = true
    · rw [if_pos hguard]
      rcases hd : openaireDonor g g[i].project_id with _ | o
      · rfl
      · exact coalesce_of_isSome _ _ hsome
    · rw [if_neg hguard]
  · by_cases hguard : enrichGuard g[i] = true
    · rw [if_pos hguard]
      rcases hd : openaireDonor g g[i].project_id with _ | o
      · rfl
      · exact coalesce_of_isSome _ _ hsome
    · rw [if_neg hguard]

def c7WRow : Row :=
  ⟨1, "cordis_bulk", some "cordis_100002", some "100002", none, none, some 1000000,
    some "DE", none, none, none, 0⟩

def c7WDonor : Row :=
  ⟨2, "openaire_bulk", some "oaire_EC_100002", some "100002", none, none, some 999999,
    some "FR", none, none, none, 0⟩

/-- Witness: C7 on a concrete store where the donor disagrees on both
fields. -/
theorem enrich_c7_no_overwrite_witness :
    (([c7WRow, c7WDonor].get ⟨0, by decide⟩).total_funding.isSome = true →
        ((_enrich_update 9 [c7WRow, c7WDonor]).get ⟨0, by decide⟩).total_funding =
          ([c7WRow, c7WDonor].get ⟨0, by decide⟩).total_funding) ∧
    (([c7WRow, c7WDonor].get ⟨0, by decide⟩).pi_country.isSome = true →
        ((_enrich_update 9 [c7WRow, c7WDonor]).get ⟨0, by decide⟩).pi_country =
          ([c7WRow, c7WDonor].get ⟨0, by decide⟩).pi_country) :=
  enrich_c7_no_overwrite 9 [c7WRow, c7WDonor] 0 (by decide) (by decide) (by decide)

/-!  ## Claim C8: the enrichment count matches the eligible set and the
rows the update touches -/

/-- The set of primary records described by claim C8, written from the
claim: `cordis_bulk` source, non-empty `project_id`, at least one null
among the enrichable fields, and at least one `openaire_bulk` record with
the same `project_id`. -/
def c8SpecPred (g : List Row) (c : Row) : Bool :=
  c.source == "cordis_bulk" &&
    nonEmptyStr c.project_id &&
    (c.total_funding == none || c.pi_country == none) &&
    (g.any fun o => o.source == "openaire_bulk" && sqlEqStr o.project_id c.project_id)

/-- The rows the enrichment `UPDATE` writes: guard satisfied and a donor
row joined. -/
def enrichTouched (g : List Row) : Nat :=
  (g.filter fun c => enrichGuard c && (openaireDonor g c.project_id).isSome).length

/-- The rows whose value actually changes under `_enrich_update`. -/
def changedRows (now : Nat) (g : List Row) : Nat :=
  ((g.zip (_enrich_update now g)).filter fun p => !(p.1 == p.2)).length

theorem zip_map_filter_len (u : Row → Row) (q : Row × Row → Bool) (g : List Row) :
    ((g.zip (g.map u)).filter q).length = (g.filter fun r => q (r, u r)).length := by
  induction g with
  | nil => rfl
  | cons a l ih =>
    simp only [List.map_cons, List.zip_cons_cons, List.filter_cons]
    by_cases hq : q (a, u a) = true
    · simp [hq, ih]
    · simp [hq, ih]

theorem donor_isSome_eq_any (g : List Row) (pid : Option String) :
    (openaireDonor g pid).isSome =
      (g.any fun o => o.source == "openaire_bulk" && sqlEqStr o.project_id pid) := by
  unfold openaireDonor
  rw [Bool.eq_iff_iff, List.find?_isSome, List.any_eq_true]

/-- A row the update joins is changed by it (its `updated_at` becomes
`now`); a row it does not join is unchanged. -/
theorem touched_changed (now : Nat) (g : List Row) (c : Row) (hlt : c.updated_at < now) :
    (enrichGuard c && (openaireDonor g c.project_id).isSome) = !(c == enrichRow now g c) := by
  by_cases hguard : enrichGuard c = true
  · rcases hd : openaireDonor g c.project_id with _ | o
    · have he : enrichRow now g c = c := by
        unfold enrichRow; rw [if_pos hguard, hd]
      rw [he]
      simp [hguard]
    · have he : enrichRow now g c =
          { c with
            total_funding := coalesce c.total_funding o.total_funding,
            pi_country := coalesce c.pi_country o.pi_country,
            updated_at := now } := by
        unfold enrichRow; rw [if_pos hguard, hd]
      rw [he, hguard]
      simp only [Option.isSome_some, Bool.and_self, Bool.true_and]
      symm
      rw [Bool.not_eq_true', beq_eq_false_iff_ne, ne_eq]
      intro heq
      have h2 := congrArg Row.updated_at heq
      simp only [] at h2
      omega
  · have he : enrichRow now g c = c := by
      unfold enrichRow; rw [if_neg hguard]
    rw [he]
    simp [hguard]

/-- Claim C8: the count `_enrich_cordis_from_openaire` returns equals the
number of records in the claim's eligible set, equals the number of rows
the enrichment `UPDATE` writes, and — whenever no stored timestamp
already equals the current one — equals the number of rows whose stored
value actually changes. -/
theorem enrich_c8_count (now : Nat) (g : List Row) :
    _enrich_count g = (g.filter (c8SpecPred g)).length ∧
    _enrich_count g = enrichTouched g ∧
    ((∀ r ∈ g, r.updated_at < now) → enrichTouched g = changedRows now g) := by
  refine ⟨?_, ?_, ?_⟩
  · unfold _enrich_count c8SpecPred enrichGuard
    rfl
  · unfold _enrich_count enrichTouched
    congr 1
    apply List.filter_congr
    intro c _
    rw [donor_isSome_eq_any]
  · intro hts
    unfold changedRows _enrich_update
    rw [zip_map_filter_len]
    unfold enrichTouched
    congr 1
    apply List.filter_congr
    intro c hc
    exact touched_changed now g c (hts c hc)

def c8WCordis : Row :=
  ⟨1, "cordis_bulk", some "cordis_100001", some "100001", none, none, none, none, none,
    none, none, 0⟩

def c8WDonor : Row :=
  ⟨2, "openaire_bulk", some "oaire_EC_100001", some "100001", none, none, some 500000,
    some "FR", none, none, none, 0⟩

/-- Witness: C8 on a concrete store (one eligible CORDIS row, one
donor). -/
theorem enrich_c8_count_witness :
    _enrich_count [c8WCordis, c8WDonor] =
      ([c8WCordis, c8WDonor].filter (c8SpecPred [c8WCordis, c8WDonor])).length ∧
    _enrich_count [c8WCordis, c8WDonor] = enrichTouched [c8WCordis, c8WDonor] ∧
    enrichTouched [c8WCordis, c8WDonor] = changedRows 9 [c8WCordis, c8WDonor] := by
  have h := enrich_c8_count 9 [c8WCordis, c8WDonor]
  exact ⟨h.1, h.2.1, h.2.2 (by decide)⟩

/-!  ## Claim C10: records with NULL or empty project_id are untouched by
both cross-source flagging phases -/

theorem nonEmptyStr_false {o : Option String} (h : o = none ∨ o = some "") :
    nonEmptyStr o = false := by
  rcases h with rfl | rfl <;> simp [nonEmptyStr]

theorem ecFlagRowBulk_empty (g : List Row) {r : Row}
    (h : nonEmptyStr r.project_id = false) : ecFlagRowBulk g r = r := by
  unfold ecFlagRowBulk
  simp [h]

theorem ecFlagRowApi_empty (g : List Row) {r : Row}
    (h : nonEmptyStr r.project_id = false) : ecFlagRowApi g r = r := by
  unfold ecFlagRowApi
  simp [h]

theorem apiFlagRow_empty (g : List Row) {r : Row}
    (h : nonEmptyStr r.project_id = false) : apiFlagRow g r = r := by
  unfold apiFlagRow
  simp [h]

/-- Claim C10: a record whose `project_id` is NULL or the empty string is
not modified at all (in particular keeps its `dedup_of`) by the
primary-source flagging phase followed by the secondary-vs-secondary
flagging phase, on any input table. -/
theorem crossflags_c10_empty_pid (g : List Row) (i : Nat) (hig : i < g.length)
    (hi : i < (_flag_openaire_api_duplicates (_flag_openaire_ec_duplicates g)).length)
    (hpid : (g.get ⟨i, hig⟩).project_id = none ∨ (g.get ⟨i, hig⟩).project_id = some "") :
    ((_flag_openaire_api_duplicates (_flag_openaire_ec_duplicates g)).get ⟨i, hi⟩) =
      g.get ⟨i, hig⟩ := by
  have hne := nonEmptyStr_false hpid
  simp only [List.get_eq_getElem] at hne ⊢
  unfold _flag_openaire_api_duplicates _flag_openaire_ec_duplicates _flag_ec_api _flag_ec_bulk
  simp only [List.getElem_map]
  rw [ecFlagRowBulk_empty _ hne, ecFlagRowApi_empty _ hne, apiFlagRow_empty _ hne]

def c10Row : Row :=
  ⟨1, "openaire", some "openaire_EC_1", some "", none, none, none, none, none, none,
    none, 0⟩

def c10Cordis : Row :=
  ⟨2, "cordis_bulk", some "cordis_1", some "", none, none, none, none, none, none,
    none, 0⟩

/-- Witness: C10 on a concrete store where an empty-string `project_id`
would otherwise match a CORDIS row. -/
theorem crossflags_c10_empty_pid_witness :
    ((_flag_openaire_api_duplicates (_flag_openaire_ec_duplicates [c10Row, c10Cordis])).get
        ⟨0, by decide⟩) = [c10Row, c10Cordis].get ⟨0, by decide⟩ :=
  crossflags_c10_empty_pid [c10Row, c10Cordis] 0 (by decide) (by decide) (by decide)

/-!  ## Claim C4: lowest-id tie-break in every flagging phase -/

/-- `m` is the least id among the rows of `g` satisfying the candidate
predicate `p`. -/
def isMinCandidate (m : Nat) (p : Row → Bool) (g : List Row) : Prop :=
  (∃ c ∈ g, p c = true ∧ c.id = m) ∧ ∀ c ∈ g, p c = true → m ≤ c.id

theorem minCand_of_find?_map {g : List Row}
    (hs : List.Pairwise (fun a b => a.id < b.id) g) {p : Row → Bool} {m : Nat}
    (h : (g.find? p).map (·.id) = some m) : isMinCandidate m p g := by
  rcases hf : g.find? p with _ | c
  · rw [hf] at h
    simp at h
  · rw [hf] at h
    simp only [Option.map_some'] at h
    obtain ⟨hp, hmem, hmin⟩ := find?_sorted_min hs hf
    injection h with h
    exact ⟨⟨c, hmem, hp, h⟩, fun y hy hpy => h ▸ hmin y hy hpy⟩

theorem minCand_of_groupMin {g : List Row} {src : String} {sid : Option String} {m : Nat}
    (h : (groupIds g src sid).min? = some m) :
    isMinCandidate m (withinCandPred src sid) g := by
  have hmem := natMin?_mem h
  have hle := natMin?_le h
  unfold groupIds at hmem hle
  constructor
  · obtain ⟨c, hc, hcid⟩ := List.mem_map.mp hmem
    have hcf := List.mem_filter.mp hc
    exact ⟨c, hcf.1, hcf.2, hcid⟩
  · intro c hcg hpc
    exact hle c.id (List.mem_map_of_mem _ (List.mem_filter.mpr ⟨hcg, hpc⟩))

/-- Claim C4: on a table of monotonically increasing ids (ids are
assigned from a sequence at insertion), whenever any of the four
flagging updates (EC-vs-CORDIS on openaire_bulk, EC-vs-CORDIS on the
openaire API source, API-vs-bulk, within-source) changes a record's
`dedup_of`, the new value is the lowest id among that phase's candidate
canonical rows. -/
theorem dedup_c4_lowest_id_tiebreak (g : List Row)
    (hs : List.Pairwise (fun a b => a.id < b.id) g) (i : Nat) (hig : i < g.length) :
    (∀ hb : i < (_flag_ec_bulk g).length, ∀ m : Nat,
      ((_flag_ec_bulk g).get ⟨i, hb⟩).dedup_of ≠ (g.get ⟨i, hig⟩).dedup_of →
      ((_flag_ec_bulk g).get ⟨i, hb⟩).dedup_of = some m →
      isMinCandidate m (ecCandPred (g.get ⟨i, hig⟩).project_id) g) ∧
    (∀ hb : i < (_flag_ec_api g).length, ∀ m : Nat,
      ((_flag_ec_api g).get ⟨i, hb⟩).dedup_of ≠ (g.get ⟨i, hig⟩).dedup_of →
      ((_flag_ec_api g).get ⟨i, hb⟩).dedup_of = some m →
      isMinCandidate m (ecCandPred (g.get ⟨i, hig⟩).project_id) g) ∧
    (∀ hb : i < (_flag_openaire_api_duplicates g).length, ∀ m : Nat,
      ((_flag_openaire_api_duplicates g).get ⟨i, hb⟩).dedup_of ≠ (g.get ⟨i, hig⟩).dedup_of →
      ((_flag_openaire_api_duplicates g).get ⟨i, hb⟩).dedup_of = some m →
      isMinCandidate m (apiCandPred (g.get ⟨i, hig⟩).project_id) g) ∧
    (∀ hb : i < (_flag_within_source_duplicates g).length, ∀ m : Nat,
      ((_flag_within_source_duplicates g).get ⟨i, hb⟩).dedup_of ≠ (g.get ⟨i, hig⟩).dedup_of →
      ((_flag_within_source_duplicates g).get ⟨i, hb⟩).dedup_of = some m →
      isMinCandidate m
        (withinCandPred (g.get ⟨i, hig⟩).source (g.get ⟨i, hig⟩).source_id) g) := by
  refine ⟨?_, ?_, ?_, ?_⟩
  · intro hb m hne hm
    unfold _flag_ec_bulk at hm hne
    simp only [List.get_eq_getElem, List.getElem_map] at hm hne ⊢
    unfold ecFlagRowBulk at hm hne
    by_cases hc : (g[i].source == "openaire_bulk" && sqlLikeEsc g[i].source_id "oaire_EC_" &&
        nonEmptyStr g[i].project_id && cordisExists g g[i].project_id) = true
    · rw [if_pos hc] at hm
      exact minCand_of_find?_map hs hm
    · rw [if_neg hc] at hne
      exact absurd rfl hne
  · intro hb m hne hm
    unfold _flag_ec_api at hm hne
    simp only [List.get_eq_getElem, List.getElem_map] at hm hne ⊢
    unfold ecFlagRowApi at hm hne
    by_cases hc : (g[i].source == "openaire" && sqlLikeEsc g[i].source_id "openaire_EC_" &&
        nonEmptyStr g[i].project_id && cordisExists g g[i].project_id) = true
    · rw [if_pos hc] at hm
      exact minCand_of_find?_map hs hm
    · rw [if_neg hc] at hne
      exact absurd rfl hne
  · intro hb m hne hm
    unfold _flag_openaire_api_duplicates at hm hne
    simp only [List.get_eq_getElem, List.getElem_map] at hm hne ⊢
    unfold apiFlagRow at hm hne
    by_cases hc : (g[i].source == "openaire" && g[i].dedup_of == none &&
        nonEmptyStr g[i].project_id && bulkExists g g[i].project_id) = true
    · rw [if_pos hc] at hm
      exact minCand_of_find?_map hs hm
    · rw [if_neg hc] at hne
      exact absurd rfl hne
  · intro hb m hne hm
    unfold _flag_within_source_duplicates at hm hne
    simp only [List.get_eq_getElem, List.getElem_map] at hm hne ⊢
    unfold withinFlagRow at hm hne
    by_cases hc : (g[i].dedup_of == none && notGroupMin g g[i] &&
        g.any fun r2 => r2.source == g[i].source && sqlEqStr r2.source_id g[i].source_id &&
          r2.id != g[i].id) = true
    · rw [if_pos hc] at hm
      exact minCand_of_groupMin hm
    · rw [if_neg hc] at hne
      exact absurd rfl hne

def c4Cordis1 : Row :=
  ⟨1, "cordis_bulk", some "cordis_X1", some "X", none, none, none, none, none, none,
    none, 0⟩

def c4Cordis2 : Row :=
  ⟨2, "cordis_bulk", some "cordis_X2", some "X", none, none, none, none, none, none,
    none, 0⟩

def c4Bulk : Row :=
  ⟨3, "openaire_bulk", some "oaire_EC_X", some "X", none, none, none, none, none, none,
    none, 0⟩

/-- Witness: with two CORDIS candidates (ids 1 and 2) for the same
`project_id`, the EC flagging of the bulk record picks id 1. -/
theorem dedup_c4_lowest_id_tiebreak_witness :
    isMinCandidate 1 (ecCandPred ([c4Cordis1, c4Cordis2, c4Bulk].get ⟨2, by decide⟩).project_id)
      [c4Cordis1, c4Cordis2, c4Bulk] :=
  (dedup_c4_lowest_id_tiebreak [c4Cordis1, c4Cordis2, c4Bulk] (by decide) 2 (by decide)).1
    (by decide) 1 (by decide) (by decide)

/-!  ## Flag-relevant projection of a row

The three flagging phases read only `id`, `source`, `source_id`,
`project_id` and `dedup_of` of any row, and write only `dedup_of`; the
claims C1/C9 factor through this projection. -/

structure FlagView where
  id : Nat
  source : String
  source_id : Option String
  project_id : Option String
  dedup_of : Option Nat
deriving DecidableEq, Repr

def fview (r : Row) : FlagView :=
  ⟨r.id, r.source, r.source_id, r.project_id, r.dedup_of⟩

/-- `clearFlags` on the projection. -/
def clearV (t : List FlagView) : List FlagView :=
  t.map fun v => { v with dedup_of := none }

def ecCandPredV (pid : Option String) (c : FlagView) : Bool :=
  c.source == "cordis_bulk" && sqlEqStr c.project_id pid

def cordisMatchV (t : List FlagView) (pid : Option String) : Option Nat :=
  (t.find? (ecCandPredV pid)).map (·.id)

def cordisExistsV (t : List FlagView) (pid : Option String) : Bool :=
  t.any (ecCandPredV pid)

def ecFlagViewBulk (t : List FlagView) (o : FlagView) : FlagView :=
  if o.source == "openaire_bulk" && sqlLikeEsc o.source_id "oaire_EC_" &&
      nonEmptyStr o.project_id && cordisExistsV t o.project_id
  then { o with dedup_of := cordisMatchV t o.project_id } else o

def flagECBulkV (t : List FlagView) : List FlagView := t.map (ecFlagViewBulk t)

def ecFlagViewApi (t : List FlagView) (o : FlagView) : FlagView :=
  if o.source == "openaire" && sqlLikeEsc o.source_id "openaire_EC_" &&
      nonEmptyStr o.project_id && cordisExistsV t o.project_id
  then { o with dedup_of := cordisMatchV t o.project_id } else o

def flagECApiV (t : List FlagView) : List FlagView := t.map (ecFlagViewApi t)

def apiCandPredV (pid : Option String) (b : FlagView) : Bool :=
  b.source == "openaire_bulk" && sqlEqStr b.project_id pid && b.dedup_of == none

def bulkMatchV (t : List FlagView) (pid : Option String) : Option Nat :=
  (t.find? (apiCandPredV pid)).map (·.id)

def bulkExistsV (t : List FlagView) (pid : Option String) : Bool :=
  t.any (apiCandPredV pid)

def apiFlagViewRow (t : List FlagView) (r : FlagView) : FlagView :=
  if r.source == "openaire" && r.dedup_of == none && nonEmptyStr r.project_id &&
      bulkExistsV t r.project_id
  then { r with dedup_of := bulkMatchV t r.project_id } else r

def flagApiV (t : List FlagView) : List FlagView := t.map (apiFlagViewRow t)

def withinCandPredV (src : String) (sid : Option String) (r2 : FlagView) : Bool :=
  r2.source == src && sqlEqStr r2.source_id sid

def groupIdsV (t : List FlagView) (src : String) (sid : Option String) : List Nat :=
  (t.filter (withinCandPredV src sid)).map (·.id)

def notGroupMinV (t : List FlagView) (r : FlagView) : Bool :=
  match (groupIdsV t r.source r.source_id).min? with
  | some m => r.id != m
  | none => false

def withinFlagViewRow (t : List FlagView) (r : FlagView) : FlagView :=
  if r.dedup_of == none && notGroupMinV t r &&
      t.any fun r2 => r2.source == r.source && sqlEqStr r2.source_id r.source_id && r2.id != r.id
  then { r with dedup_of := (groupIdsV t r.source r.source_id).min? } else r

def flagWithinV (t : List FlagView) : List FlagView := t.map (withinFlagViewRow t)

/-!  ### The row-level phases factor through the projection -/

theorem findIdView (g : List Row) (pv : FlagView → Bool) :
    ((g.map fview).find? pv).map (·.id) = (g.find? fun r => pv (fview r)).map (·.id) := by
  rw [List.find?_map, Option.map_map]
  rfl

theorem anyView (g : List Row) (pv : FlagView → Bool) :
    (g.map fview).any pv = g.any fun r => pv (fview r) := by
  induction g with
  | nil => rfl
  | cons a l ih => simp only [List.map_cons, List.any_cons, ih]

theorem filterIdView (g : List Row) (pv : FlagView → Bool) :
    ((g.map fview).filter pv).map (·.id) = (g.filter fun r => pv (fview r)).map (·.id) := by
  rw [List.filter_map, List.map_map]
  rfl

theorem cordisMatch_view (g : List Row) (pid : Option String) :
    cordisMatchV (g.map fview) pid = cordisMatch g pid := by
  unfold cordisMatchV cordisMatch
  rw [findIdView]
  rfl

theorem cordisExists_view (g : List Row) (pid : Option String) :
    cordisExistsV (g.map fview) pid = cordisExists g pid := by
  unfold cordisExistsV cordisExists
  rw [anyView]
  rfl

theorem bulkMatch_view (g : List Row) (pid : Option String) :
    bulkMatchV (g.map fview) pid = bulkMatch g pid := by
  unfold bulkMatchV bulkMatch
  rw [findIdView]
  rfl

theorem bulkExists_view (g : List Row) (pid : Option String) :
    bulkExistsV (g.map fview) pid = bulkExists g pid := by
  unfold bulkExistsV bulkExists
  rw [anyView]
  rfl

theorem groupIds_view (g : List Row) (src : String) (sid : Option String) :
    groupIdsV (g.map fview) src sid = groupIds g src sid := by
  unfold groupIdsV groupIds
  rw [filterIdView]
  rfl

theorem notGroupMin_view (g : List Row) (r : Row) :
    notGroupMinV (g.map fview) (fview r) = notGroupMin g r := by
  unfold notGroupMinV notGroupMin
  rw [groupIds_view]
  rfl

theorem fview_ecFlagRowBulk (g : List Row) (r : Row) :
    fview (ecFlagRowBulk g r) = ecFlagViewBulk (g.map fview) (fview r) := by
  unfold ecFlagRowBulk ecFlagViewBulk
  rw [cordisExists_view, cordisMatch_view]
  dsimp only [fview]
  split <;> rfl

theorem fview_ecFlagRowApi (g : List Row) (r : Row) :
    fview (ecFlagRowApi g r) = ecFlagViewApi (g.map fview) (fview r) := by
  unfold ecFlagRowApi ecFlagViewApi
  rw [cordisExists_view, cordisMatch_view]
  dsimp only [fview]
  split <;> rfl

theorem fview_apiFlagRow (g : List Row) (r : Row) :
    fview (apiFlagRow g r) = apiFlagViewRow (g.map fview) (fview r) := by
  unfold apiFlagRow apiFlagViewRow
  rw [bulkExists_view, bulkMatch_view]
  dsimp only [fview]
  split <;> rfl

theorem fview_withinFlagRow (g : List Row) (r : Row) :
    fview (withinFlagRow g r) = withinFlagViewRow (g.map fview) (fview r) := by
  unfold withinFlagRow withinFlagViewRow
  rw [notGroupMin_view, groupIds_view, anyView]
  dsimp only [fview]
  split <;> rfl

theorem clear_view (g : List Row) : (clearFlags g).map fview = clearV (g.map fview) := by
  unfold clearFlags clearV
  rw [List.map_map, List.map_map]
  rfl

theorem flagECbulk_view (g : List Row) :
    (_flag_ec_bulk g).map fview = flagECBulkV (g.map fview) := by
  unfold _flag_ec_bulk flagECBulkV
  rw [List.map_map, List.map_map]
  refine List.map_congr_left ?_
  intro r _
  exact fview_ecFlagRowBulk g r

theorem flagECapi_view (g : List Row) :
    (_flag_ec_api g).map fview = flagECApiV (g.map fview) := by
  unfold _flag_ec_api flagECApiV
  rw [List.map_map, List.map_map]
  refine List.map_congr_left ?_
  intro r _
  exact fview_ecFlagRowApi g r

theorem flagApi_view (g : List Row) :
    (_flag_openaire_api_duplicates g).map fview = flagApiV (g.map fview) := by
  unfold _flag_openaire_api_duplicates flagApiV
  rw [List.map_map, List.map_map]
  refine List.map_congr_left ?_
  intro r _
  exact fview_apiFlagRow g r

theorem flagWithin_view (g : List Row) :
    (_flag_within_source_duplicates g).map fview = flagWithinV (g.map fview) := by
  unfold _flag_within_source_duplicates flagWithinV
  rw [List.map_map, List.map_map]
  refine List.map_congr_left ?_
  intro r _
  exact fview_withinFlagRow g r

theorem ecPhase_eq (g : List Row) :
    _flag_openaire_ec_duplicates g = _flag_ec_api (_flag_ec_bulk g) := by
  unfold _flag_openaire_ec_duplicates
  rfl

/-!  ### The non-flag phases preserve the projection -/

theorem map_fview_of_rowfn {u : Row → Row} (hu : ∀ r, fview (u r) = fview r)
    (g : List Row) : (g.map u).map fview = g.map fview := by
  rw [List.map_map]
  refine List.map_congr_left ?_
  intro r _
  exact hu r

theorem fview_foldl {β : Type} {step : List Row → β → List Row}
    (hstep : ∀ g b, (step g b).map fview = g.map fview) :
    ∀ (l : List β) (g : List Row), (l.foldl step g).map fview = g.map fview := by
  intro l
  induction l with
  | nil => intro g; rfl
  | cons b l ih => intro g; rw [List.foldl_cons, ih, hstep]

theorem fview_swapDates (r : Row) : fview (swapDates r) = fview r := by
  unfold swapDates
  split
  · split <;> rfl
  · rfl

theorem fview_fixSentinelStart (r : Row) : fview (fixSentinelStart r) = fview r := by
  rcases fixSentinelStart_cases r with h | h <;> rw [h] <;> rfl

theorem fview_fixSentinelEnd (r : Row) : fview (fixSentinelEnd r) = fview r := by
  rcases fixSentinelEnd_cases r with h | h <;> rw [h] <;> rfl

theorem fview_fixAncientStart (r : Row) : fview (fixAncientStart r) = fview r := by
  rcases fixAncientStart_cases r with h | h <;> rw [h] <;> rfl

theorem fview_fixAncientEnd (r : Row) : fview (fixAncientEnd r) = fview r := by
  rcases fixAncientEnd_cases r with h | h <;> rw [h] <;> rfl

theorem fview_fixFutureEnd (r : Row) : fview (fixFutureEnd r) = fview r := by
  rcases fixFutureEnd_cases r with h | h <;> rw [h] <;> rfl

theorem clean_fview (g : List Row) :
    (_clean_date_anomalies g).map fview = g.map fview := by
  rw [clean_eq_map]
  refine map_fview_of_rowfn ?_ g
  intro r
  unfold cleanRow
  rw [fview_fixFutureEnd, fview_fixAncientEnd, fview_fixAncientStart, fview_fixSentinelEnd,
    fview_fixSentinelStart, fview_swapDates]

theorem fview_countryFix (o n : String) (r : Row) : fview (countryFix o n r) = fview r := by
  unfold countryFix
  split <;> rfl

theorem fview_currencyFix (o n : String) (r : Row) : fview (currencyFix o n r) = fview r := by
  unfold currencyFix
  split <;> rfl

theorem countries_fview (g : List Row) :
    (_normalize_country_codes g).map fview = g.map fview := by
  unfold _normalize_country_codes _COUNTRY_CODE_MAP
  simp only [List.foldl_cons, List.foldl_nil]
  rw [map_fview_of_rowfn (fview_countryFix _ _), map_fview_of_rowfn (fview_countryFix _ _)]

theorem currencies_fview (g : List Row) :
    (_normalize_currency_codes g).map fview = g.map fview := by
  unfold _normalize_currency_codes _CURRENCY_CODE_MAP
  simp only [List.foldl_cons, List.foldl_nil]
  rw [map_fview_of_rowfn (fview_currencyFix _ _)]

theorem linkByPattern_fview (src pat : String) (fid : Nat) (g : List Row) :
    (linkByPattern src pat fid g).map fview = g.map fview := by
  unfold linkByPattern
  refine map_fview_of_rowfn ?_ g
  intro r
  dsimp only
  split <;> rfl

theorem ecLinkGrants_fview (fmap : List (String × Nat)) (g : List Row) :
    (ecLinkGrants fmap g).map fview = g.map fview := by
  unfold ecLinkGrants
  split
  · split
    · rfl
    · refine map_fview_of_rowfn ?_ g
      intro r
      unfold ecLinkRow
      split <;> rfl
  · rfl

theorem linkGrants_fview (fmap : List (String × Nat)) (g : List Row) :
    (linkGrants fmap g).map fview = g.map fview := by
  unfold linkGrants
  rw [fview_foldl (fun g p => linkByPattern_fview _ _ _ g) fmap,
    fview_foldl (fun g p => linkByPattern_fview _ _ _ g) fmap, ecLinkGrants_fview]

theorem link_fview (st : Store) :
    (_link_funders st).grants.map fview = st.grants.map fview := by
  unfold _link_funders
  dsimp only
  rw [ensure_grants, linkGrants_fview]

theorem fview_enrichRow (now : Nat) (g : List Row) (r : Row) :
    fview (enrichRow now g r) = fview r := by
  unfold enrichRow
  split
  · split <;> rfl
  · rfl

theorem enrich_fview (now : Nat) (g : List Row) :
    (_enrich_update now g).map fview = g.map fview := by
  unfold _enrich_update
  exact map_fview_of_rowfn (fview_enrichRow now g) g

theorem preFlag_fview (now : Nat) (st : Store) :
    (preFlagStore now st).grants.map fview = clearV (st.grants.map fview) := by
  rw [preFlagStore_grants, enrich_fview, linkStage_eq, link_fview]
  show (normStage st).map fview = clearV (st.grants.map fview)
  unfold normStage
  rw [currencies_fview, countries_fview, clean_fview, clear_view]

/-- The flag state of the whole pipeline: clear, then the three flagging
phases, all determined by the projection of the input table. -/
theorem run_fview (now : Nat) (st : Store) :
    (run_dedup now st).grants.map fview =
      flagWithinV (flagApiV (flagECApiV (flagECBulkV (clearV (st.grants.map fview))))) := by
  rw [run_dedup_grants, flagWithin_view, midFlags_eq, flagApi_view, ecPhase_eq,
    flagECapi_view, flagECbulk_view, preFlag_fview]

/-!  ### Clearing absorbs any previous flag assignment -/

theorem clearV_flagECBulkV (t : List FlagView) : clearV (flagECBulkV t) = clearV t := by
  unfold clearV flagECBulkV
  rw [List.map_map]
  refine List.map_congr_left ?_
  intro v _
  dsimp only [Function.comp]
  unfold ecFlagViewBulk
  split <;> rfl

theorem clearV_flagECApiV (t : List FlagView) : clearV (flagECApiV t) = clearV t := by
  unfold clearV flagECApiV
  rw [List.map_map]
  refine List.map_congr_left ?_
  intro v _
  dsimp only [Function.comp]
  unfold ecFlagViewApi
  split <;> rfl

theorem clearV_flagApiV (t : List FlagView) : clearV (flagApiV t) = clearV t := by
  unfold clearV flagApiV
  rw [List.map_map]
  refine List.map_congr_left ?_
  intro v _
  dsimp only [Function.comp]
  unfold apiFlagViewRow
  split <;> rfl

theorem clearV_flagWithinV (t : List FlagView) : clearV (flagWithinV t) = clearV t := by
  unfold clearV flagWithinV
  rw [List.map_map]
  refine List.map_congr_left ?_
  intro v _
  dsimp only [Function.comp]
  unfold withinFlagViewRow
  split <;> rfl

theorem clearV_clearV (t : List FlagView) : clearV (clearV t) = clearV t := by
  unfold clearV
  rw [List.map_map]
  rfl

/-- The flag-relevant state after a second run equals the state after the
first run. -/
theorem run_view_stable (now now2 : Nat) (st : Store) :
    (run_dedup now2 (run_dedup now st)).grants.map fview =
      (run_dedup now st).grants.map fview := by
  have h1 : clearV ((run_dedup now st).grants.map fview) = clearV (st.grants.map fview) := by
    rw [run_fview now st, clearV_flagWithinV, clearV_flagApiV, clearV_flagECApiV,
      clearV_flagECBulkV, clearV_clearV]
  rw [run_fview now2 (run_dedup now st), h1, ← run_fview now st]

/-- Claim C1: running the full dedup pipeline twice yields, for every
grant record, the same final `dedup_of` as running it once, and the
identical canonical view (`dedup_of IS NULL`) membership — for any pair
of run timestamps. -/
theorem run_dedup_c1_idempotent (now now2 : Nat) (st : Store) :
    ((run_dedup now2 (run_dedup now st)).grants.map fun r => (r.id, r.dedup_of)) =
      ((run_dedup now st).grants.map fun r => (r.id, r.dedup_of)) ∧
    (((run_dedup now2 (run_dedup now st)).grants.filter fun r => r.dedup_of == none).map
        fun r => r.id) =
      (((run_dedup now st).grants.filter fun r => r.dedup_of == none).map fun r => r.id) := by
  have hv := run_view_stable now now2 st
  constructor
  · have h1 : ∀ g : List Row, (g.map fun r => (r.id, r.dedup_of)) =
        (g.map fview).map fun v => (v.id, v.dedup_of) := by
      intro g
      rw [List.map_map]
      rfl
    rw [h1, h1, hv]
  · have h2 : ∀ g : List Row, ((g.filter fun r => r.dedup_of == none).map fun r => r.id) =
        ((g.map fview).filter fun v => v.dedup_of == none).map fun v => v.id := by
      intro g
      rw [List.filter_map, List.map_map]
      rfl
    rw [h2, h2, hv]

/-!  ## Claim C9: no phase creates a self-referencing flag -/

theorem idsV_clearV (t : List FlagView) :
    ((clearV t).map fun v => v.id) = t.map fun v => v.id := by
  unfold clearV
  rw [List.map_map]
  rfl

theorem ids_flagECbulk (g : List Row) :
    ((_flag_ec_bulk g).map fun r => r.id) = g.map fun r => r.id := by
  unfold _flag_ec_bulk
  rw [List.map_map]
  refine List.map_congr_left ?_
  intro r _
  dsimp only [Function.comp]
  unfold ecFlagRowBulk
  split <;> rfl

theorem ids_flagECapi (g : List Row) :
    ((_flag_ec_api g).map fun r => r.id) = g.map fun r => r.id := by
  unfold _flag_ec_api
  rw [List.map_map]
  refine List.map_congr_left ?_
  intro r _
  dsimp only [Function.comp]
  unfold ecFlagRowApi
  split <;> rfl

theorem ids_flagApi (g : List Row) :
    ((_flag_openaire_api_duplicates g).map fun r => r.id) = g.map fun r => r.id := by
  unfold _flag_openaire_api_duplicates
  rw [List.map_map]
  refine List.map_congr_left ?_
  intro r _
  dsimp only [Function.comp]
  unfold apiFlagRow
  split <;> rfl

/-- Every row of the pre-flag stage has a cleared `dedup_of`. -/
theorem dedup_none_of_clearV {g : List Row} {t : List FlagView}
    (hv : g.map fview = clearV t) : ∀ r ∈ g, r.dedup_of = none := by
  intro r hr
  have hmem : fview r ∈ clearV t := by
    rw [← hv]
    exact List.mem_map_of_mem fview hr
  obtain ⟨v, _, heq⟩ := List.mem_map.mp hmem
  have h3 : (fview r).dedup_of = none := by
    rw [← heq]
  exact h3

theorem noSelf_flagECbulk {g : List Row} (hnod : (g.map fun r => r.id).Nodup)
    (h : ∀ r ∈ g, r.dedup_of ≠ some r.id) :
    ∀ r ∈ _flag_ec_bulk g, r.dedup_of ≠ some r.id := by
  unfold _flag_ec_bulk
  intro r hr
  obtain ⟨r0, hr0, rfl⟩ := List.mem_map.mp hr
  unfold ecFlagRowBulk
  split
  next hc =>
    simp only [Bool.and_eq_true, beq_iff_eq] at hc
    intro habs
    have habs2 : cordisMatch g r0.project_id = some r0.id := habs
    unfold cordisMatch at habs2
    rcases hf : g.find? (ecCandPred r0.project_id) with _ | c
    · rw [hf] at habs2
      exact absurd habs2 (by simp)
    · rw [hf] at habs2
      simp only [Option.map_some'] at habs2
      injection habs2 with hid
      have hcp : ecCandPred r0.project_id c = true := List.find?_some hf
      have hcm := List.mem_of_find?_eq_some hf
      have hceq : c = r0 := List.inj_on_of_nodup_map hnod hcm hr0 hid
      simp only [ecCandPred, Bool.and_eq_true, beq_iff_eq] at hcp
      rw [hceq] at hcp
      rw [hcp.1] at hc
      exact absurd hc.1.1.1 (by decide)
  next => exact h r0 hr0

theorem noSelf_flagECapi {g : List Row} (hnod : (g.map fun r => r.id).Nodup)
    (h : ∀ r ∈ g, r.dedup_of ≠ some r.id) :
    ∀ r ∈ _flag_ec_api g, r.dedup_of ≠ some r.id := by
  unfold _flag_ec_api
  intro r hr
  obtain ⟨r0, hr0, rfl⟩ := List.mem_map.mp hr
  unfold ecFlagRowApi
  split
  next hc =>
    simp only [Bool.and_eq_true, beq_iff_eq] at hc
    intro habs
    have habs2 : cordisMatch g r0.project_id = some r0.id := habs
    unfold cordisMatch at habs2
    rcases hf : g.find? (ecCandPred r0.project_id) with _ | c
    · rw [hf] at habs2
      exact absurd habs2 (by simp)
    · rw [hf] at habs2
      simp only [Option.map_some'] at habs2
      injection habs2 with hid
      have hcp : ecCandPred r0.project_id c = true := List.find?_some hf
      have hcm := List.mem_of_find?_eq_some hf
      have hceq : c = r0 := List.inj_on_of_nodup_map hnod hcm hr0 hid
      simp only [ecCandPred, Bool.and_eq_true, beq_iff_eq] at hcp
      rw [hceq] at hcp
      rw [hcp.1] at hc
      exact absurd hc.1.1.1 (by decide)
  next => exact h r0 hr0

theorem noSelf_flagApi {g : List Row} (hnod : (g.map fun r => r.id).Nodup)
    (h : ∀ r ∈ g, r.dedup_of ≠ some r.id) :
    ∀ r ∈ _flag_openaire_api_duplicates g, r.dedup_of ≠ some r.id := by
  unfold _flag_openaire_api_duplicates
  intro r hr
  obtain ⟨r0, hr0, rfl⟩ := List.mem_map.mp hr
  unfold apiFlagRow
  split
  next hc =>
    simp only [Bool.and_eq_true, beq_iff_eq] at hc
    intro habs
    have habs2 : bulkMatch g r0.project_id = some r0.id := habs
    unfold bulkMatch at habs2
    rcases hf : g.find? (apiCandPred r0.project_id) with _ | c
    · rw [hf] at habs2
      exact absurd habs2 (by simp)
    · rw [hf] at habs2
      simp only [Option.map_some'] at habs2
      injection habs2 with hid
      have hcp : apiCandPred r0.project_id c = true := List.find?_some hf
      have hcm := List.mem_of_find?_eq_some hf
      have hceq : c = r0 := List.inj_on_of_nodup_map hnod hcm hr0 hid
      simp only [apiCandPred, Bool.and_eq_true, beq_iff_eq] at hcp
      rw [hceq] at hcp
      rw [hcp.1.1] at hc
      exact absurd hc.1.1.1 (by decide)
  next => exact h r0 hr0

theorem noSelf_flagWithin {g : List Row}
    (h : ∀ r ∈ g, r.dedup_of ≠ some r.id) :
    ∀ r ∈ _flag_within_source_duplicates g, r.dedup_of ≠ some r.id := by
  unfold _flag_within_source_duplicates
  intro r hr
  obtain ⟨r0, hr0, rfl⟩ := List.mem_map.mp hr
  unfold withinFlagRow
  split
  next hc =>
    simp only [Bool.and_eq_true] at hc
    have hngm : notGroupMin g r0 = true := hc.1.2
    intro habs
    have habs2 : (groupIds g r0.source r0.source_id).min? = some r0.id := habs
    unfold notGroupMin at hngm
    rw [habs2] at hngm
    simp at hngm
  next => exact h r0 hr0

/-- Claim C9: on a store with pairwise distinct internal ids, no phase of
`run_dedup` ever points a record's `dedup_of` at the record itself. -/
theorem dedup_c9_no_self_reference (now : Nat) (st : Store)
    (hn : (st.grants.map fun r => r.id).Nodup) :
    ∀ r ∈ (run_dedup now st).grants, r.dedup_of ≠ some r.id := by
  have hpre := preFlag_fview now st
  have hids4 : ((preFlagStore now st).grants.map fun r => r.id) =
      st.grants.map fun r => r.id := by
    have h2 := congrArg (List.map fun v : FlagView => v.id) hpre
    rw [List.map_map, idsV_clearV, List.map_map] at h2
    exact h2
  have hnod4 : ((preFlagStore now st).grants.map fun r => r.id).Nodup := by
    rw [hids4]
    exact hn
  have hns4 : ∀ r ∈ (preFlagStore now st).grants, r.dedup_of ≠ some r.id := by
    intro r hr
    rw [dedup_none_of_clearV hpre r hr]
    simp
  have hnod5 : ((_flag_ec_bulk (preFlagStore now st).grants).map fun r => r.id).Nodup := by
    rw [ids_flagECbulk]
    exact hnod4
  have hnod6 : ((_flag_ec_api (_flag_ec_bulk (preFlagStore now st).grants)).map
      fun r => r.id).Nodup := by
    rw [ids_flagECapi, ids_flagECbulk]
    exact hnod4
  rw [run_dedup_grants, midFlags_eq, ecPhase_eq]
  exact noSelf_flagWithin (noSelf_flagApi hnod6 (noSelf_flagECapi hnod5
    (noSelf_flagECbulk hnod4 hns4)))

def c9Cordis : Row :=
  ⟨1, "cordis_bulk", some "cordis_900001", some "900001", none, none, none, none, none,
    none, none, 0⟩

def c9Bulk : Row :=
  ⟨2, "openaire_bulk", some "oaire_EC_900001", some "900001", none, none, none, none, none,
    none, none, 0⟩

def c9St : Store := ⟨[c9Cordis, c9Bulk], [], 1⟩

set_option maxRecDepth 4000 in
/-- Witness: C9 applied to a concrete store at the record that gets
flagged. -/
theorem dedup_c9_no_self_reference_witness :
    ((run_dedup 0 c9St).grants.get ⟨1, by decide⟩).dedup_of ≠
      some ((run_dedup 0 c9St).grants.get ⟨1, by decide⟩).id :=
  dedup_c9_no_self_reference 0 c9St (by decide) _ (by decide)

/-!  ## Row-level facts about the flagging phases (claims C2, C3) -/

theorem ecFlagRowBulk_id (g : List Row) (r : Row) : (ecFlagRowBulk g r).id = r.id := by
  unfold ecFlagRowBulk
  split <;> rfl

theorem ecFlagRowApi_id (g : List Row) (r : Row) : (ecFlagRowApi g r).id = r.id := by
  unfold ecFlagRowApi
  split <;> rfl

theorem apiFlagRow_id (g : List Row) (r : Row) : (apiFlagRow g r).id = r.id := by
  unfold apiFlagRow
  split <;> rfl

theorem withinFlagRow_id (g : List Row) (r : Row) : (withinFlagRow g r).id = r.id := by
  unfold withinFlagRow
  split <;> rfl

theorem ecFlagRowBulk_src (g : List Row) (r : Row) :
    (ecFlagRowBulk g r).source = r.source := by
  unfold ecFlagRowBulk
  split <;> rfl

theorem ecFlagRowApi_src (g : List Row) (r : Row) :
    (ecFlagRowApi g r).source = r.source := by
  unfold ecFlagRowApi
  split <;> rfl

theorem apiFlagRow_src (g : List Row) (r : Row) : (apiFlagRow g r).source = r.source := by
  unfold apiFlagRow
  split <;> rfl

theorem withinFlagRow_src (g : List Row) (r : Row) :
    (withinFlagRow g r).source = r.source := by
  unfold withinFlagRow
  split <;> rfl

theorem ecFlagRowBulk_sid (g : List Row) (r : Row) :
    (ecFlagRowBulk g r).source_id = r.source_id := by
  unfold ecFlagRowBulk
  split <;> rfl

theorem ecFlagRowApi_sid (g : List Row) (r : Row) :
    (ecFlagRowApi g r).source_id = r.source_id := by
  unfold ecFlagRowApi
  split <;> rfl

theorem apiFlagRow_sid (g : List Row) (r : Row) :
    (apiFlagRow g r).source_id = r.source_id := by
  unfold apiFlagRow
  split <;> rfl

theorem withinFlagRow_sid (g : List Row) (r : Row) :
    (withinFlagRow g r).source_id = r.source_id := by
  unfold withinFlagRow
  split <;> rfl

/-- Either the EC-bulk update writes the CORDIS match into `dedup_of`, or
it leaves the row alone. -/
theorem ecFlagRowBulk_cases (g : List Row) (r : Row) :
    ecFlagRowBulk g r = { r with dedup_of := cordisMatch g r.project_id } ∨
      ecFlagRowBulk g r = r := by
  unfold ecFlagRowBulk
  split
  · exact Or.inl rfl
  · exact Or.inr rfl

theorem ecFlagRowApi_cases (g : List Row) (r : Row) :
    ecFlagRowApi g r = { r with dedup_of := cordisMatch g r.project_id } ∨
      ecFlagRowApi g r = r := by
  unfold ecFlagRowApi
  split
  · exact Or.inl rfl
  · exact Or.inr rfl

theorem apiFlagRow_cases (g : List Row) (r : Row) :
    apiFlagRow g r = { r with dedup_of := bulkMatch g r.project_id } ∨
      apiFlagRow g r = r := by
  unfold apiFlagRow
  split
  · exact Or.inl rfl
  · exact Or.inr rfl

/-- A row whose source is not `openaire_bulk` is untouched by the EC-bulk
update. -/
theorem ecFlagRowBulk_skip (g : List Row) {r : Row} (h : r.source ≠ "openaire_bulk") :
    ecFlagRowBulk g r = r := by
  unfold ecFlagRowBulk
  apply if_neg
  intro hcon
  simp only [Bool.and_eq_true, beq_iff_eq] at hcon
  exact h hcon.1.1.1

/-- A row whose source is not `openaire` is untouched by the EC-api
update. -/
theorem ecFlagRowApi_skip (g : List Row) {r : Row} (h : r.source ≠ "openaire") :
    ecFlagRowApi g r = r := by
  unfold ecFlagRowApi
  apply if_neg
  intro hcon
  simp only [Bool.and_eq_true, beq_iff_eq] at hcon
  exact h hcon.1.1.1

/-- A row whose source is not `openaire` is untouched by the API-vs-bulk
update. -/
theorem apiFlagRow_skip (g : List Row) {r : Row} (h : r.source ≠ "openaire") :
    apiFlagRow g r = r := by
  unfold apiFlagRow
  apply if_neg
  intro hcon
  simp only [Bool.and_eq_true, beq_iff_eq] at hcon
  exact h hcon.1.1.1

theorem exists_of_findIdMap {g : List Row} {p : Row → Bool} {t : Nat}
    (h : (g.find? p).map (·.id) = some t) : ∃ b ∈ g, p b = true ∧ b.id = t := by
  rcases hf : g.find? p with _ | b
  · rw [hf] at h
    exact absurd h (by simp)
  · rw [hf] at h
    simp only [Option.map_some'] at h
    injection h with h
    exact ⟨b, List.mem_of_find?_eq_some hf, List.find?_some hf, h⟩

theorem sqlEqStr_symm (a b : Option String) : sqlEqStr a b = sqlEqStr b a := by
  cases a <;> cases b <;> try rfl
  simp only [sqlEqStr]
  rw [Bool.eq_iff_iff]
  simp only [beq_iff_eq]
  exact eq_comm

theorem keys_flagECbulk (g : List Row) :
    ((_flag_ec_bulk g).map fun r => (r.source, r.source_id)) =
      g.map fun r => (r.source, r.source_id) := by
  unfold _flag_ec_bulk
  rw [List.map_map]
  refine List.map_congr_left ?_
  intro r _
  dsimp only [Function.comp]
  rw [ecFlagRowBulk_src, ecFlagRowBulk_sid]

theorem keys_flagECapi (g : List Row) :
    ((_flag_ec_api g).map fun r => (r.source, r.source_id)) =
      g.map fun r => (r.source, r.source_id) := by
  unfold _flag_ec_api
  rw [List.map_map]
  refine List.map_congr_left ?_
  intro r _
  dsimp only [Function.comp]
  rw [ecFlagRowApi_src, ecFlagRowApi_sid]

theorem keys_flagApi (g : List Row) :
    ((_flag_openaire_api_duplicates g).map fun r => (r.source, r.source_id)) =
      g.map fun r => (r.source, r.source_id) := by
  unfold _flag_openaire_api_duplicates
  rw [List.map_map]
  refine List.map_congr_left ?_
  intro r _
  dsimp only [Function.comp]
  rw [apiFlagRow_src, apiFlagRow_sid]

theorem keysV_clearV (t : List FlagView) :
    ((clearV t).map fun v => (v.source, v.source_id)) =
      t.map fun v => (v.source, v.source_id) := by
  unfold clearV
  rw [List.map_map]
  rfl

/-!  ## Claim C2: no chaining -/

/-- When no two rows share a natural key, the within-source phase flags
nothing. -/
theorem within_noop {g : List Row}
    (hkey : List.Pairwise
      (fun a b : Row => ¬(a.source = b.source ∧ sqlEqStr a.source_id b.source_id = true)) g) :
    _flag_within_source_duplicates g = g := by
  unfold _flag_within_source_duplicates
  have hsym : Symmetric
      (fun a b : Row => ¬(a.source = b.source ∧ sqlEqStr a.source_id b.source_id = true)) := by
    intro a b hab hcon
    exact hab ⟨hcon.1.symm, by rw [sqlEqStr_symm]; exact hcon.2⟩
  have hrow : ∀ r ∈ g, withinFlagRow g r = r := by
    intro r hr
    unfold withinFlagRow
    apply if_neg
    intro hcon
    simp only [Bool.and_eq_true] at hcon
    have hany := hcon.2
    rw [List.any_eq_true] at hany
    obtain ⟨r2, hr2, hp⟩ := hany
    simp only [Bool.and_eq_true, beq_iff_eq, bne_iff_ne, ne_eq] at hp
    by_cases heq : r2 = r
    · exact hp.2 (by rw [heq])
    · exact List.Pairwise.forall hsym hkey hr2 hr heq ⟨hp.1.1, hp.1.2⟩
  rw [List.map_congr_left hrow]
  simp

/-- After the clear phase, the two EC updates and the API update produce
no flag chain: every `dedup_of` written points at a row left canonical. -/
theorem noChain_pipeline {g : List Row}
    (hnod : (g.map fun r => r.id).Nodup)
    (hclr : ∀ r ∈ g, r.dedup_of = none) :
    ∀ r ∈ _flag_openaire_api_duplicates (_flag_ec_api (_flag_ec_bulk g)),
    ∀ r2 ∈ _flag_openaire_api_duplicates (_flag_ec_api (_flag_ec_bulk g)),
      r.dedup_of = some r2.id → r2.dedup_of = none := by
  intro r hr r2 hr2 hd
  have hnod5 : ((_flag_ec_bulk g).map fun x => x.id).Nodup := by
    rw [ids_flagECbulk]
    exact hnod
  have hnod6 : ((_flag_ec_api (_flag_ec_bulk g)).map fun x => x.id).Nodup := by
    rw [ids_flagECapi]
    exact hnod5
  -- a CORDIS row of the base table survives all three phases untouched
  have hcordisFinal : (∃ c ∈ g, c.source = "cordis_bulk" ∧ c.id = r2.id) →
      r2.dedup_of = none := by
    rintro ⟨c, hcg, hcsrc, hcid⟩
    unfold _flag_openaire_api_duplicates at hr2
    obtain ⟨x1, hx1, hre⟩ := List.mem_map.mp hr2
    unfold _flag_ec_api at hx1
    obtain ⟨x2, hx2, rfl⟩ := List.mem_map.mp hx1
    unfold _flag_ec_bulk at hx2
    obtain ⟨x3, hx3, rfl⟩ := List.mem_map.mp hx2
    have hxid : x3.id = c.id := by
      rw [hcid, ← hre, apiFlagRow_id, ecFlagRowApi_id, ecFlagRowBulk_id]
    obtain rfl := List.inj_on_of_nodup_map hnod hx3 hcg hxid
    rw [← hre,
      ecFlagRowBulk_skip g (by rw [hcsrc]; decide),
      ecFlagRowApi_skip _ (by rw [hcsrc]; decide),
      apiFlagRow_skip _ (by rw [hcsrc]; decide)]
    exact hclr x3 hx3
  -- a canonical openaire_bulk row of the API snapshot survives the API
  -- phase untouched
  have hbulkFinal : (∃ b ∈ _flag_ec_api (_flag_ec_bulk g),
      b.source = "openaire_bulk" ∧ b.dedup_of = none ∧ b.id = r2.id) →
      r2.dedup_of = none := by
    rintro ⟨b, hbg, hbsrc, hbd, hbid⟩
    unfold _flag_openaire_api_duplicates at hr2
    obtain ⟨b1, hb1, hre⟩ := List.mem_map.mp hr2
    have hbid1 : b1.id = b.id := by
      rw [hbid, ← hre, apiFlagRow_id]
    obtain rfl := List.inj_on_of_nodup_map hnod6 hb1 hbg hbid1
    rw [← hre, apiFlagRow_skip _ (by rw [hbsrc]; decide)]
    exact hbd
  -- decompose where r got its flag
  unfold _flag_openaire_api_duplicates at hr
  obtain ⟨r1, hr1, rfl⟩ := List.mem_map.mp hr
  rcases apiFlagRow_cases (_flag_ec_api (_flag_ec_bulk g)) r1 with hcase | hcase
  · rw [hcase] at hd
    have hbm : ((_flag_ec_api (_flag_ec_bulk g)).find?
        (apiCandPred r1.project_id)).map (·.id) = some r2.id := hd
    obtain ⟨b, hbmem, hbp, hbid⟩ := exists_of_findIdMap hbm
    simp only [apiCandPred, Bool.and_eq_true, beq_iff_eq] at hbp
    exact hbulkFinal ⟨b, hbmem, hbp.1.1, hbp.2, hbid⟩
  · rw [hcase] at hd
    unfold _flag_ec_api at hr1
    obtain ⟨rb, hrb, rfl⟩ := List.mem_map.mp hr1
    rcases ecFlagRowApi_cases (_flag_ec_bulk g) rb with hc2 | hc2
    · rw [hc2] at hd
      have hcm : ((_flag_ec_bulk g).find? (ecCandPred rb.project_id)).map (·.id) =
          some r2.id := hd
      obtain ⟨c5, hc5mem, hc5p, hc5id⟩ := exists_of_findIdMap hcm
      simp only [ecCandPred, Bool.and_eq_true, beq_iff_eq] at hc5p
      unfold _flag_ec_bulk at hc5mem
      obtain ⟨c0, hc0, rfl⟩ := List.mem_map.mp hc5mem
      refine hcordisFinal ⟨c0, hc0, ?_, ?_⟩
      · rw [← ecFlagRowBulk_src g c0]
        exact hc5p.1
      · rw [← ecFlagRowBulk_id g c0]
        exact hc5id
    · rw [hc2] at hd
      unfold _flag_ec_bulk at hrb
      obtain ⟨r3, hr3, rfl⟩ := List.mem_map.mp hrb
      rcases ecFlagRowBulk_cases g r3 with hc3 | hc3
      · rw [hc3] at hd
        have hcm : (g.find? (ecCandPred r3.project_id)).map (·.id) = some r2.id := hd
        obtain ⟨c, hcmem, hcp, hcid⟩ := exists_of_findIdMap hcm
        simp only [ecCandPred, Bool.and_eq_true, beq_iff_eq] at hcp
        exact hcordisFinal ⟨c, hcmem, hcp.1, hcid⟩
      · rw [hc3] at hd
        rw [hclr r3 hr3] at hd
        exact absurd hd (by simp)

/-- A store on which `run_dedup` produces a two-hop chain: the EC phase
points record 3's natural-key twin (record 2) at CORDIS record 1, then
the within-source phase points record 3 at record 2 — which is no longer
canonical. -/
def c2Row1 : Row :=
  ⟨1, "cordis_bulk", some "c1", some "X", none, none, none, none, none, none, none, 0⟩

def c2Row2 : Row :=
  ⟨2, "openaire_bulk", some "oaire_EC_7", some "X", none, none, none, none, none, none,
    none, 0⟩

def c2Row3 : Row :=
  ⟨3, "openaire_bulk", some "oaire_EC_7", none, none, none, none, none, none, none,
    none, 0⟩

def c2CexSt : Store := ⟨[c2Row1, c2Row2, c2Row3], [], 1⟩

set_option maxRecDepth 8000 in
/-- C2 counterexample: as stated the claim is false — after `run_dedup`
on `c2CexSt`, record 3 has `dedup_of = 2` while record 2 has
`dedup_of = 1`, a two-hop chain. -/
theorem dedup_c2_counterexample :
    ¬ (∀ r ∈ (run_dedup 0 c2CexSt).grants, ∀ r2 ∈ (run_dedup 0 c2CexSt).grants,
        r.dedup_of = some r2.id → r2.dedup_of = none) := by
  decide

/-- C2, amended: provided internal ids are pairwise distinct and no two
records share a natural key `(source, source_id)` (natural-key
uniqueness, the store's ingestion contract), every record flagged by
`run_dedup` references a record whose `dedup_of` is NULL. -/
theorem dedup_c2_no_chaining (now : Nat) (st : Store)
    (hn : (st.grants.map fun r => r.id).Nodup)
    (hkey : List.Pairwise
      (fun a b : Row => ¬(a.source = b.source ∧ sqlEqStr a.source_id b.source_id = true))
      st.grants) :
    ∀ r ∈ (run_dedup now st).grants, ∀ r2 ∈ (run_dedup now st).grants,
      r.dedup_of = some r2.id → r2.dedup_of = none := by
  have hpre := preFlag_fview now st
  -- ids, keys, and cleared flags at the pre-flag stage
  have hids4 : ((preFlagStore now st).grants.map fun r => r.id) =
      st.grants.map fun r => r.id := by
    have h2 := congrArg (List.map fun v : FlagView => v.id) hpre
    rw [List.map_map, idsV_clearV, List.map_map] at h2
    exact h2
  have hnod4 : ((preFlagStore now st).grants.map fun r => r.id).Nodup := by
    rw [hids4]
    exact hn
  have hkeys4 : ((preFlagStore now st).grants.map fun r => (r.source, r.source_id)) =
      st.grants.map fun r => (r.source, r.source_id) := by
    have h2 := congrArg (List.map fun v : FlagView => (v.source, v.source_id)) hpre
    rw [List.map_map, keysV_clearV, List.map_map] at h2
    exact h2
  have hclr4 := dedup_none_of_clearV hpre
  -- the key-uniqueness hypothesis transfers to the mid-flag stage
  have hkey6 : List.Pairwise
      (fun a b : Row => ¬(a.source = b.source ∧ sqlEqStr a.source_id b.source_id = true))
      (midFlags now st) := by
    have hkeys6 : ((midFlags now st).map fun r => (r.source, r.source_id)) =
        st.grants.map fun r => (r.source, r.source_id) := by
      rw [midFlags_eq, ecPhase_eq, keys_flagApi, keys_flagECapi, keys_flagECbulk, hkeys4]
    have hmapped : List.Pairwise
        (fun a b : String × Option String => ¬(a.1 = b.1 ∧ sqlEqStr a.2 b.2 = true))
        ((midFlags now st).map fun r => (r.source, r.source_id)) := by
      rw [hkeys6]
      exact List.pairwise_map.mpr hkey
    exact List.pairwise_map.mp hmapped
  rw [run_dedup_grants, within_noop hkey6, midFlags_eq, ecPhase_eq]
  exact noChain_pipeline hnod4 hclr4

def c2WCordis : Row :=
  ⟨1, "cordis_bulk", some "cordis_W2", some "W2", none, none, none, none, none, none,
    none, 0⟩

def c2WBulk : Row :=
  ⟨2, "openaire_bulk", some "oaire_EC_W2", some "W2", none, none, none, none, none, none,
    none, 0⟩

def c2WSt : Store := ⟨[c2WCordis, c2WBulk], [], 1⟩

set_option maxRecDepth 8000 in
/-- Witness: amended C2 on a concrete two-record store where the bulk
record is flagged as a duplicate of the CORDIS record. -/
theorem dedup_c2_no_chaining_witness :
    ((run_dedup 0 c2WSt).grants.get ⟨0, by decide⟩).dedup_of = none :=
  dedup_c2_no_chaining 0 c2WSt (by decide) (by decide)
    ((run_dedup 0 c2WSt).grants.get ⟨1, by decide⟩) (by decide)
    ((run_dedup 0 c2WSt).grants.get ⟨0, by decide⟩) (by decide) (by decide)

/-!  ## Claim C3: canonical uniqueness per natural key -/

theorem ids_flagWithin (g : List Row) :
    ((_flag_within_source_duplicates g).map fun r => r.id) = g.map fun r => r.id := by
  unfold _flag_within_source_duplicates
  rw [List.map_map]
  refine List.map_congr_left ?_
  intro r _
  dsimp only [Function.comp]
  rw [withinFlagRow_id]

theorem withinFlagRow_cases (g : List Row) (r : Row) :
    withinFlagRow g r = { r with dedup_of := (groupIds g r.source r.source_id).min? } ∨
      withinFlagRow g r = r := by
  unfold withinFlagRow
  split
  · exact Or.inl rfl
  · exact Or.inr rfl

theorem groupIds_within (g : List Row) (src : String) (sid : Option String) :
    groupIds (_flag_within_source_duplicates g) src sid = groupIds g src sid := by
  unfold groupIds _flag_within_source_duplicates
  rw [List.filter_map, List.map_map]
  have h1 : ∀ r ∈ g, (withinCandPred src sid ∘ withinFlagRow g) r = withinCandPred src sid r := by
    intro r _
    dsimp only [Function.comp]
    unfold withinCandPred
    rw [withinFlagRow_src, withinFlagRow_sid]
  rw [List.filter_congr h1]
  refine List.map_congr_left ?_
  intro r _
  dsimp only [Function.comp]
  rw [withinFlagRow_id]

theorem groupIds_nodup {g : List Row} (h : (g.map fun r => r.id).Nodup)
    (src : String) (sid : Option String) : (groupIds g src sid).Nodup := by
  unfold groupIds
  have hs : List.Sublist ((g.filter (withinCandPred src sid)).map fun r => r.id)
      (g.map fun r => r.id) :=
    List.Sublist.map _ (List.filter_sublist g)
  exact List.Nodup.sublist hs h

theorem exists_ne_of_one_lt {l : List Nat} (hnd : l.Nodup) (hlen : 1 < l.length) (x : Nat) :
    ∃ y ∈ l, y ≠ x := by
  rcases l with _ | ⟨a, l1⟩
  · simp at hlen
  rcases l1 with _ | ⟨b, t⟩
  · simp at hlen
  by_cases hax : a = x
  · refine ⟨b, by simp, ?_⟩
    intro hbx
    have hab : a ≠ b := by
      have h2 := List.nodup_cons.mp hnd
      intro heq
      exact h2.1 (heq ▸ List.mem_cons_self b t)
    exact hab (by rw [hax, hbx])
  · exact ⟨a, by simp, hax⟩

theorem withinCandPred_some_iff (src sid : String) (r : Row) :
    withinCandPred src (some sid) r = true ↔ (r.source = src ∧ r.source_id = some sid) := by
  unfold withinCandPred
  cases hs : r.source_id with
  | none => simp [sqlEqStr]
  | some x => simp [sqlEqStr, Bool.and_eq_true, beq_iff_eq]

theorem within_group_analysis (g6 : List Row)
    (hnod6 : (g6.map fun r => r.id).Nodup)
    (src sid : String) (m : Nat)
    (hmin6 : (groupIds g6 src (some sid)).min? = some m)
    (hgrp6 : 1 < (groupIds g6 src (some sid)).length) :
    (∀ r ∈ _flag_within_source_duplicates g6, r.source = src → r.source_id = some sid →
      r.id ≠ m → r.dedup_of ≠ none) ∧
    ((∀ r ∈ g6, r.source = src → r.source_id = some sid → r.dedup_of = none) →
      ∀ r ∈ _flag_within_source_duplicates g6, r.source = src → r.source_id = some sid →
        (r.dedup_of = none ↔ r.id = m)) := by
  have hgnodup := groupIds_nodup hnod6 src (some sid)
  have hpart1 : ∀ r ∈ _flag_within_source_duplicates g6, r.source = src →
      r.source_id = some sid → r.id ≠ m → r.dedup_of ≠ none := by
    intro r hr hsrc hsid hne
    unfold _flag_within_source_duplicates at hr
    obtain ⟨r6, hr6, rfl⟩ := List.mem_map.mp hr
    have hsrc6 : r6.source = src := by
      rw [← withinFlagRow_src g6 r6]
      exact hsrc
    have hsid6 : r6.source_id = some sid := by
      rw [← withinFlagRow_sid g6 r6]
      exact hsid
    have hid6 : r6.id ≠ m := by
      rw [withinFlagRow_id] at hne
      exact hne
    rcases hd6 : r6.dedup_of with _ | v
    · have hval : withinFlagRow g6 r6 =
          { r6 with dedup_of := (groupIds g6 r6.source r6.source_id).min? } := by
        unfold withinFlagRow
        rw [if_pos]
        simp only [Bool.and_eq_true]
        refine ⟨⟨?_, ?_⟩, ?_⟩
        · rw [hd6]
          rfl
        · unfold notGroupMin
          rw [hsrc6, hsid6, hmin6]
          exact bne_iff_ne.mpr hid6
        · rw [List.any_eq_true]
          obtain ⟨x, hxmem, hxne⟩ := exists_ne_of_one_lt hgnodup hgrp6 r6.id
          unfold groupIds at hxmem
          obtain ⟨rx, hrx, hrxid⟩ := List.mem_map.mp hxmem
          have hrxf := List.mem_filter.mp hrx
          have hrxm := (withinCandPred_some_iff src sid rx).mp hrxf.2
          refine ⟨rx, hrxf.1, ?_⟩
          simp only [Bool.and_eq_true]
          refine ⟨⟨?_, ?_⟩, ?_⟩
          · rw [beq_iff_eq, hrxm.1, hsrc6]
          · rw [hrxm.2, hsid6]
            simp [sqlEqStr]
          · rw [bne_iff_ne, hrxid]
            exact hxne
      rw [hval]
      show (groupIds g6 r6.source r6.source_id).min? ≠ none
      rw [hsrc6, hsid6, hmin6]
      simp
    · rcases withinFlagRow_cases g6 r6 with hcase | hcase <;> rw [hcase]
      · show (groupIds g6 r6.source r6.source_id).min? ≠ none
        rw [hsrc6, hsid6, hmin6]
        simp
      · rw [hd6]
        simp
  refine ⟨hpart1, ?_⟩
  intro H r hr hsrc hsid
  constructor
  · intro hdn
    by_contra hne
    exact hpart1 r hr hsrc hsid hne hdn
  · intro hid
    unfold _flag_within_source_duplicates at hr
    obtain ⟨r6, hr6, rfl⟩ := List.mem_map.mp hr
    have hsrc6 : r6.source = src := by
      rw [← withinFlagRow_src g6 r6]
      exact hsrc
    have hsid6 : r6.source_id = some sid := by
      rw [← withinFlagRow_sid g6 r6]
      exact hsid
    have hd6 : r6.dedup_of = none := H r6 hr6 hsrc6 hsid6
    have hid6 : r6.id = m := by
      rw [withinFlagRow_id] at hid
      exact hid
    have hval : withinFlagRow g6 r6 = r6 := by
      unfold withinFlagRow
      apply if_neg
      intro hcon
      simp only [Bool.and_eq_true] at hcon
      have hng := hcon.1.2
      unfold notGroupMin at hng
      rw [hsrc6, hsid6, hmin6, bne_iff_ne] at hng
      exact hng hid6
    rw [hval]
    exact hd6

/-- C3, amended: on a store with pairwise distinct ids, for every
`(source, source_id)` group of the final table with more than one member:
every member other than the lowest-id one is flagged; and if no member of
the group was flagged by the two cross-source phases, then exactly one
member — the lowest-id one — is canonical. -/
theorem dedup_c3_canonical_per_group (now : Nat) (st : Store)
    (hn : ((run_dedup now st).grants.map fun r => r.id).Nodup)
    (src sid : String) (m : Nat)
    (hmin : (groupIds (run_dedup now st).grants src (some sid)).min? = some m)
    (hgrp : 1 < (groupIds (run_dedup now st).grants src (some sid)).length) :
    (∀ r ∈ (run_dedup now st).grants, r.source = src → r.source_id = some sid →
      r.id ≠ m → r.dedup_of ≠ none) ∧
    ((∀ r ∈ midFlags now st, r.source = src → r.source_id = some sid → r.dedup_of = none) →
      ∀ r ∈ (run_dedup now st).grants, r.source = src → r.source_id = some sid →
        (r.dedup_of = none ↔ r.id = m)) := by
  have hGeq : (run_dedup now st).grants = _flag_within_source_duplicates (midFlags now st) :=
    run_dedup_grants now st
  have hgidseq : groupIds (run_dedup now st).grants src (some sid) =
      groupIds (midFlags now st) src (some sid) := by
    rw [hGeq, groupIds_within]
  have hmin6 : (groupIds (midFlags now st) src (some sid)).min? = some m := by
    rw [← hgidseq]
    exact hmin
  have hgrp6 : 1 < (groupIds (midFlags now st) src (some sid)).length := by
    rw [← hgidseq]
    exact hgrp
  have hnod6 : ((midFlags now st).map fun r => r.id).Nodup := by
    rw [hGeq, ids_flagWithin] at hn
    exact hn
  have hmain := within_group_analysis (midFlags now st) hnod6 src sid m hmin6 hgrp6
  constructor
  · intro r hr
    rw [hGeq] at hr
    exact hmain.1 r hr
  · intro H r hr
    rw [hGeq] at hr
    exact hmain.2 H r hr

def c3CexR1 : Row :=
  ⟨1, "cordis_bulk", some "c31", some "Y", none, none, none, none, none, none, none, 0⟩

def c3CexR2 : Row :=
  ⟨2, "openaire_bulk", some "oaire_EC_9", some "Y", none, none, none, none, none, none,
    none, 0⟩

def c3CexR3 : Row :=
  ⟨3, "openaire_bulk", some "oaire_EC_9", none, none, none, none, none, none, none,
    none, 0⟩

def c3CexSt : Store := ⟨[c3CexR1, c3CexR2, c3CexR3], [], 1⟩

set_option maxRecDepth 8000 in
/-- C3 counterexample: the claim as stated is false — after `run_dedup`
on `c3CexSt`, the group `("openaire_bulk", "oaire_EC_9")` has two
members and no member at all with `dedup_of IS NULL` (the lowest-id
member was flagged by the cross-source EC phase). -/
theorem dedup_c3_counterexample :
    1 < (groupIds (run_dedup 0 c3CexSt).grants "openaire_bulk" (some "oaire_EC_9")).length ∧
    ¬ (∃ r ∈ (run_dedup 0 c3CexSt).grants,
        r.source = "openaire_bulk" ∧ r.source_id = some "oaire_EC_9" ∧ r.dedup_of = none) := by
  decide

def c3WRow1 : Row :=
  ⟨1, "openaire_bulk", some "oaire_DFG_77", some "77", none, none, none, none, none,
    none, none, 0⟩

def c3WRow2 : Row :=
  ⟨2, "openaire_bulk", some "oaire_DFG_77", some "77", none, none, none, none, none,
    none, none, 0⟩

def c3WSt : Store := ⟨[c3WRow1, c3WRow2], [], 1⟩

set_option maxRecDepth 8000 in
/-- Witness: amended C3 on a concrete store with a two-member group and
no cross-source flags — the higher-id member is flagged. -/
theorem dedup_c3_canonical_per_group_witness :
    ((run_dedup 0 c3WSt).grants.get ⟨1, by decide⟩).dedup_of ≠ none :=
  (dedup_c3_canonical_per_group 0 c3WSt (by decide) "openaire_bulk" "oaire_DFG_77" 1
      (by decide) (by decide)).1
    ((run_dedup 0 c3WSt).grants.get ⟨1, by decide⟩) (by decide) (by decide) (by decide)
    (by decide)

end Fundingscape
